import Mathlib

/-!
A shallow embedding of the snakers terminal snake game, translated from
`src/snake.rs` and `src/math.rs`.

Modelling conventions:
* Machine integers (`u8`, `usize`) are `Nat` with explicit `% 256` /
  `% 2 ^ 64` wrapping exactly where the source performs (release-mode)
  wrapping arithmetic.
* `std::time::Instant` occurs in the embedded operations only through
  `Snake::is_cannibal` (a deadline comparison against the `cannibal` field)
  and through code that resets that deadline to `now`; the deadline is
  modelled as the boolean `cannibal` (the value `is_cannibal` returns),
  and resetting the deadline sets the flag.  The `delta` frame timer only
  gates `can_move` and is not part of any embedded operation.
* `Rng::generate` xors the stack address of its `max` argument into the
  LCG state; those addresses are an arbitrary input stream carried in the
  generator state (`addrs`).
* `Point::distance` computes `f32::hypot(dx, dy) as u32` on integer inputs
  bounded by 255; the squared sum is at most 2 * 255 ^ 2, which is exactly
  representable in `f32`, and truncating the (correctly rounded) square
  root of such an integer is the integer square root, so `distance` is
  embedded as `isqrt (dx ^ 2 + dy ^ 2)` (a kernel-computable integer
  square root, certified by `isqrt_sq_le` and `lt_succ_isqrt_sq`).
* Rust panics (out-of-range indexing, `unwrap` on `None`,
  `unreachable!`) do not occur on the executions described by the
  theorems; functions that can panic are totalised with default values or
  `Option` (`find_target` returns `none` where the source would panic).
-/

namespace Snakers

/-- Modulus of `usize` arithmetic (64-bit). -/
def USIZE : Nat := 2 ^ 64

/-- `u8::wrapping_add_signed`: add a signed offset to a byte, wrapping mod 256. -/
def u8AddSigned (a : Nat) (d : Int) : Nat := (((a : Int) + d) % 256).toNat

/-- Release-mode `u8` subtraction of one (`x - 1` wrapping at 0). -/
def u8Sub1 (n : Nat) : Nat := (n + 255) % 256

/-- `Point` from `src/math.rs`: a pair of `u8` coordinates. -/
structure Point where
  x : Nat
  y : Nat
deriving DecidableEq

instance : Inhabited Point := ⟨⟨0, 0⟩⟩

/-- `Direction` from `src/math.rs`. -/
inductive Direction
  | Up
  | Right
  | Down
  | Left
deriving DecidableEq

instance : Inhabited Direction := ⟨Direction.Up⟩

/-- `Direction::inverse`. -/
def Direction.inverse : Direction → Direction
  | Direction.Up => Direction.Down
  | Direction.Right => Direction.Left
  | Direction.Down => Direction.Up
  | Direction.Left => Direction.Right

/-- `Direction::coords`, the unit step of a direction as `(i8, i8)`. -/
def Direction.coords : Direction → Int × Int
  | Direction.Up => (0, -1)
  | Direction.Right => (1, 0)
  | Direction.Down => (0, 1)
  | Direction.Left => (-1, 0)

/-- `impl Add<(i8, i8)> for Point`: coordinatewise `u8::wrapping_add_signed`. -/
def Point.add (p : Point) (c : Int × Int) : Point :=
  ⟨u8AddSigned p.x c.1, u8AddSigned p.y c.2⟩

/-- `Point::quick_distance`: sum of coordinatewise absolute differences. -/
def Point.quick_distance (p q : Point) : Nat :=
  Nat.dist p.x q.x + Nat.dist p.y q.y

/-- Auxiliary scan for `isqrt`: the largest `j ≤ m` with `j * j ≤ n`. -/
def isqrtGo (n : Nat) : Nat → Nat
  | 0 => 0
  | m + 1 => if (m + 1) * (m + 1) ≤ n then m + 1 else isqrtGo n m

/-- Integer square root (structurally recursive, so it evaluates in the
kernel). -/
def isqrt (n : Nat) : Nat := isqrtGo n n

/-- `Point::distance`: truncated Euclidean distance (see the header note on
`f32::hypot` exactness for these integer inputs). -/
def Point.distance (p q : Point) : Nat :=
  isqrt (((q.x : Int) - p.x).natAbs ^ 2 + ((q.y : Int) - p.y).natAbs ^ 2)

/-- `Rng` from `src/math.rs`: LCG state plus the stream of stack addresses
that `generate` xors into the state (a nondeterministic input). -/
structure Rng where
  state : Nat
  addrs : List Nat
deriving DecidableEq

instance : Inhabited Rng := ⟨⟨0, []⟩⟩

/-- `Rng::generate`: xor in the address of the argument, advance the LCG with
wrapping `usize` arithmetic, and reduce the new state mod `max`. -/
def Rng.generate (r : Rng) (max : Nat) : Nat × Rng :=
  let addr := r.addrs.headD 0
  let s0 := (r.state ^^^ addr) % USIZE
  let s1 := (s0 * 1664525 + 1013904223) % USIZE
  (s1 % max, ⟨s1, r.addrs.tail⟩)

/-- `Point::randomize`: draw `x` below `end.x` and `y` below `end.y << 1`
(the shift is done in `usize`), each result cast back `as u8`.  The previous
value of the point is ignored by the source, hence the unused receiver. -/
def Point.randomize (_p : Point) (r : Rng) (endP : Point) : Point × Rng :=
  let xr := r.generate endP.x
  let yr := xr.2.generate (endP.y * 2)
  (⟨xr.1 % 256, yr.1 % 256⟩, yr.2)

/-- `Point::random`: randomize a fresh zero point. -/
def Point.random (r : Rng) (endP : Point) : Point × Rng :=
  (⟨0, 0⟩ : Point).randomize r endP

/-- `cycle_back` from `src/math.rs`: returns the previous index value and the
cyclically decremented index, as a pair (the source mutates in place). -/
def cycle_back (len : Nat) (i : Nat) : Nat × Nat :=
  (i, if i = 0 then len - 1 else i - 1)

/-- `ColoredPoint` from `src/math.rs`. -/
structure ColoredPoint where
  point : Point
  color : Nat
deriving DecidableEq

instance : Inhabited ColoredPoint := ⟨⟨⟨0, 0⟩, 0⟩⟩

/-- `Strategy` from `src/snake.rs`. -/
inductive Strategy
  | Player
  | Speed
  | Score
  | Eat
  | Kill
  | Cannibal
deriving DecidableEq

instance : Inhabited Strategy := ⟨Strategy.Player⟩

/-- `Strategy::color`. -/
def Strategy.color : Strategy → Nat
  | Strategy.Player => 84
  | Strategy.Speed => 51
  | Strategy.Score => 208
  | Strategy.Eat => 195
  | Strategy.Kill => 210
  | Strategy.Cannibal => 190

/-- `Effect` from `src/snake.rs`. -/
inductive Effect
  | None
  | Speed
  | Nourish
  | Cannibal
deriving DecidableEq

instance : Inhabited Effect := ⟨Effect.None⟩

/-- `Food` from `src/snake.rs`.  `shape` is the display glyph. -/
structure Food where
  shape : Char
  position : Point
  color : Nat
  effect : Effect
deriving DecidableEq

instance : Inhabited Food := ⟨⟨' ', ⟨0, 0⟩, 0, Effect.None⟩⟩

/-- `Arena` from `src/snake.rs`. -/
structure Arena where
  position : Point
  size : Point
deriving DecidableEq

/-- `Snake` from `src/snake.rs`.  The `cannibal: Instant` deadline is
modelled as the boolean it is compared into (`is_cannibal`); the `delta`
movement timer gates only `can_move` and is omitted. -/
structure Snake where
  name : String
  color : Nat
  body : List Point
  head : Nat
  dir : Direction
  speed : Nat
  alive : Bool
  strat : Strategy
  cannibal : Bool
deriving DecidableEq

instance : Inhabited Snake :=
  ⟨⟨"", 0, [], 0, Direction.Up, 0, false, Strategy.Player, false⟩⟩

/-- `Snake::head()`: the point at the head index. -/
def Snake.headPoint (s : Snake) : Point := s.body.getD s.head default

/-- `Snake::tail_idx()`: cyclic predecessor of the head index. -/
def Snake.tail_idx (s : Snake) : Nat :=
  if s.head = 0 then s.body.length - 1 else s.head - 1

/-- `Snake::tail()`: the point at the tail index. -/
def Snake.tailPoint (s : Snake) : Point := s.body.getD s.tail_idx default

/-- `Snake::len()`. -/
def Snake.len (s : Snake) : Nat := s.body.length

/-- `Snake::is_cannibal()`: whether the cannibal deadline has not yet
elapsed (see the modelling note on `Instant`). -/
def Snake.is_cannibal (s : Snake) : Bool := s.cannibal

/-- `Snake::add_speed`: `saturating_sub` on the stored delay (`Nat`
subtraction is saturating). -/
def Snake.add_speed (s : Snake) (sp : Nat) : Snake :=
  { s with speed := s.speed - sp }

/-- `Snake::steer`: refuse a direct reversal, otherwise take the direction. -/
def Snake.steer (s : Snake) (d : Direction) : Snake :=
  { s with dir := if s.dir.inverse = d then s.dir else d }

/-- One body cell test of `Snake::is_crash`'s inner
`body.iter().enumerate().any(...)`: the cell at (running) index `i` crashes
the candidate `h` iff it equals `h` and is not the tail cell exempted by the
mover's cannibal mode. -/
def bodyHit (c : Bool) (tIdx : Nat) (h : Point) : Nat → List Point → Bool
  | _, [] => false
  | i, p :: rest =>
    if ¬(c = true ∧ i = tIdx) ∧ p = h then true else bodyHit c tIdx h (i + 1) rest

/-- Whether snake `s` has a (non-exempted) body cell at `h`; `c` is the
mover's cannibal flag. -/
def snakeHit (c : Bool) (s : Snake) (h : Point) : Bool :=
  bodyHit c s.tail_idx h 0 s.body

/-- The outer `snakes.iter().enumerate().any(...)` of `Snake::is_crash`,
threading the short-circuited killer attribution: the first snake that is
hit aborts the scan, and is recorded as killer iff it is not the mover. -/
def crashScan (c : Bool) (idx : Nat) (h : Point) : Nat → List Snake → Bool × Option Nat
  | _, [] => (false, none)
  | i, s :: rest =>
    if snakeHit c s h then (true, if idx ≠ i then some i else none)
    else crashScan c idx h (i + 1) rest

/-- `Snake::is_crash` with the `killer` out-parameter (initially `None` at
both call sites) returned as the second component. -/
def Snake.is_crash (snakes : List Snake) (idx : Nat) (h : Point) : Bool × Option Nat :=
  crashScan (snakes.getD idx default).is_cannibal idx h 0 snakes

/-- The candidate-head computation of `Snake::serpentine` (lines 119-132):
wrapping unit step followed by the `u8::MAX` / upper-bound edge checks
against `size.x` and `size.y << 1` (both in `u8` arithmetic). -/
def stepWrap (arena : Arena) (prev : Point) (dir : Direction) : Point :=
  let c := dir.coords
  let x0 := u8AddSigned prev.x c.1
  let y0 := u8AddSigned prev.y c.2
  let x1 := if x0 = 255 then u8Sub1 arena.size.x
            else if u8Sub1 arena.size.x < x0 then 0 else x0
  let sy := (arena.size.y * 2) % 256
  let y1 := if y0 = 255 then u8Sub1 sy
            else if u8Sub1 sy < y0 then 0 else y0
  ⟨x1, y1⟩

/-- `Snake::remove_tail`: refuse below length 3, otherwise remove the tail
cell and cyclically re-align the head index against the shortened body. -/
def Snake.remove_tail (s : Snake) : Bool × Snake :=
  if s.len < 3 then (false, s)
  else
    let body := s.body.eraseIdx s.tail_idx
    (true, { s with body := body, head := (cycle_back body.length s.head).2 })

/-- `Snake::serpentine`. -/
def Snake.serpentine (snakes : List Snake) (idx : Nat) (rng : Rng) (arena : Arena) :
    List Snake × Rng :=
  let s0 := snakes.getD idx default
  let cb := cycle_back s0.body.length s0.head
  let prev_head := s0.body.getD cb.1 default
  let s1 := { s0 with head := cb.2 }
  let head := stepWrap arena prev_head s1.dir
  let snakes1 := snakes.set idx s1
  let cr := Snake.is_crash snakes1 idx head
  let crashed := s1.alive && cr.1
  let s2 := if crashed then { s1 with alive := false, speed := 80 } else s1
  let snakes2 := snakes1.set idx s2
  let snakes3 :=
    if crashed then
      match cr.2 with
      | some i =>
        let killer := snakes2.getD i default
        snakes2.set i { killer with body := killer.body ++ List.replicate s2.len killer.headPoint }
      | none => snakes2
    else snakes2
  if s2.alive then (snakes3.set idx { s2 with body := s2.body.set s2.head head }, rng)
  else
    let rt := s2.remove_tail
    if rt.1 then (snakes3.set idx rt.2, rng)
    else
      let s3 := { rt.2 with alive := true }
      let pr := s3.headPoint.randomize rng arena.size
      (snakes3.set idx { s3 with body := s3.body.set s3.head pr.1 }, pr.2)

/-- The food loop of `Snake::eat`: index of the first food whose position
equals the mover's head. -/
def findFood (hp : Point) : Nat → List Food → Option Nat
  | _, [] => none
  | j, f :: rest => if f.position = hp then some j else findFood hp (j + 1) rest

/-- `Food::apply_effect`. -/
def Food.apply_effect (f : Food) (s : Snake) : Snake :=
  let growth : Nat := if f.effect = Effect.Nourish then 2 else 1
  let s1 :=
    match f.effect with
    | Effect.Speed => s.add_speed 2
    | Effect.Cannibal => { s with cannibal := true }
    | _ => s
  { s1 with body := s1.body ++ List.replicate growth (s1.body.getD s1.head default) }

/-- The cannibal loop of `Snake::eat`: scan snakes in index order, skip the
mover, and at the first other snake whose tail equals the mover's head
attempt `remove_tail`; a refusal (victim below length 3) continues the scan
without mutating.  Returns the victim's index and its shed state. -/
def cannibalScan (idx : Nat) (hp : Point) : Nat → List Snake → Option (Nat × Snake)
  | _, [] => none
  | i, s :: rest =>
    if i ≠ idx ∧ hp = s.tailPoint then
      let rt := s.remove_tail
      if rt.1 then some (i, rt.2) else cannibalScan idx hp (i + 1) rest
    else cannibalScan idx hp (i + 1) rest

/-- `Snake::eat`. -/
def Snake.eat (snakes : List Snake) (idx : Nat) (rng : Rng) (food : List Food)
    (arena : Arena) : List Snake × List Food × Rng :=
  let s := snakes.getD idx default
  match findFood s.headPoint 0 food with
  | some j =>
    let f := food.getD j default
    let s' := f.apply_effect s
    let pr := f.position.randomize rng arena.size
    (snakes.set idx s', food.set j { f with position := pr.1 }, pr.2)
  | none =>
    if s.is_cannibal then
      match cannibalScan idx s.headPoint 0 snakes with
      | some iv =>
        let snakes' := snakes.set iv.1 iv.2
        (snakes'.set idx { s with body := s.body ++ [s.headPoint], cannibal := true }, food, rng)
      | none => (snakes, food, rng)
    else (snakes, food, rng)

/-- `locate_food`: position of the first food with the given effect
(`unwrap` totalised to `Option`). -/
def locate_food (food : List Food) (e : Effect) : Option Point :=
  match food with
  | [] => none
  | f :: rest => if f.effect = e then some f.position else locate_food rest e

/-- Rust `Iterator::min_by_key` over points: the first point attaining the
minimal key, or `none` on an empty list. -/
def minByKey (key : Point → Nat) : List Point → Option Point
  | [] => none
  | p :: rest =>
    match minByKey key rest with
    | none => some p
    | some q => if key p ≤ key q then some p else some q

/-- The filtered tail list of `find_target`'s cannibal hunting override:
tails of all other snakes (`addr_eq` realised as index inequality) whose
delay exceeds the mover's by more than 4 (release-mode `u8` addition) and
whose length exceeds 2, in iteration order. -/
def rivalTails (sp : Nat) (selfIdx : Nat) : Nat → List Snake → List Point
  | _, [] => []
  | i, s :: rest =>
    let r := rivalTails sp selfIdx (i + 1) rest
    if i ≠ selfIdx ∧ (sp + 4) % 256 < s.speed ∧ 2 < s.len then s.tailPoint :: r else r

/-- The filtered head list of the `Strategy::Kill` arm of `find_target`:
heads of all other snakes whose delay exceeds the mover's by more than 8. -/
def rivalHeads (sp : Nat) (selfIdx : Nat) : Nat → List Snake → List Point
  | _, [] => []
  | i, s :: rest =>
    let r := rivalHeads sp selfIdx (i + 1) rest
    if i ≠ selfIdx ∧ (sp + 8) % 256 < s.speed then s.headPoint :: r else r

/-- The cannibal hunting override at the top of `Snake::find_target`: for a
non-player in cannibal mode, the qualifying rival tail nearest (by
`quick_distance`) to the mover's own tail, if any. -/
def cannibalTarget (snakes : List Snake) (selfIdx : Nat) : Option Point :=
  let self := snakes.getD selfIdx default
  if self.strat ≠ Strategy.Player ∧ self.is_cannibal = true then
    minByKey (fun t => self.tailPoint.quick_distance t) (rivalTails self.speed selfIdx 0 snakes)
  else none

/-- `Snake::find_target` (`self` identified by its index in `snakes`;
`unreachable!` for the player and `unwrap` failures totalised to `none`). -/
def Snake.find_target (snakes : List Snake) (selfIdx : Nat) (food : List Food) :
    Option Point :=
  let self := snakes.getD selfIdx default
  match cannibalTarget snakes selfIdx with
  | some t => some t
  | none =>
    match self.strat with
    | Strategy.Player => none
    | Strategy.Speed => locate_food food Effect.Speed
    | Strategy.Score => locate_food food Effect.Nourish
    | Strategy.Eat =>
      minByKey (fun p => self.headPoint.quick_distance p) (food.map (fun f => f.position))
    | Strategy.Kill =>
      match minByKey (fun p => self.headPoint.quick_distance p)
          (rivalHeads self.speed selfIdx 0 snakes) with
      | some t => some t
      | none => locate_food food Effect.Speed
    | Strategy.Cannibal =>
      locate_food food (if self.is_cannibal then Effect.Speed else Effect.Cannibal)

/-- `Point::nearest_directions`: the ordered 4-candidate direction list
(`(bounds.x + 1)` is a `u8` addition, shifted after the cast to `u32`). -/
def Point.nearest_directions (p target bounds : Point) : List Direction :=
  let dh := if target.x < p.x then Direction.Left else Direction.Right
  let distH := target.distance (p.add dh.coords)
  let dv := if target.y < p.y then Direction.Up else Direction.Down
  let distV := target.distance (p.add dv.coords)
  if distH < distV then
    if ((bounds.x + 1) % 256) / 2 < distH then [dh.inverse, dh, dv, dv.inverse]
    else [dh, dv, dv.inverse, dh.inverse]
  else if bounds.y + 2 < distV then [dv.inverse, dv, dh, dh.inverse]
  else [dv, dh, dh.inverse, dv.inverse]

/-- The candidate loop of `Snake::seek`: the first direction that is neither
the current reversal nor crashes the hypothetical one-step head; if every
candidate is skipped the current direction is kept. -/
def seekDir (snakes : List Snake) (idx : Nat) : List Direction → Direction
  | [] => (snakes.getD idx default).dir
  | d :: rest =>
    let s := snakes.getD idx default
    if d = s.dir.inverse then seekDir snakes idx rest
    else if (Snake.is_crash snakes idx (s.headPoint.add d.coords)).1 then
      seekDir snakes idx rest
    else d

/-- `Snake::seek`. -/
def Snake.seek (snakes : List Snake) (idx : Nat) (target bounds : Point) : List Snake :=
  let s := snakes.getD idx default
  snakes.set idx { s with dir := seekDir snakes idx (s.headPoint.nearest_directions target bounds) }

/-- One emitted glyph of `Snake::render`: the logical point drawn, whether
the upper half-block was used, and the foreground / optional background
color selected for it. -/
structure RenderOp where
  pos : Point
  glyphTop : Bool
  fg : Nat
  bg : Option Nat
deriving DecidableEq

/-- `Vec::swap_remove`: replace index `i` with the last element and pop. -/
def swapRemove (l : List ColoredPoint) (i : Nat) : List ColoredPoint :=
  match l.getLast? with
  | none => l
  | some last => (l.set i last).dropLast

/-- The body of the `for p in &self.body` loop of `Snake::render` for a
single point: consume a complementary pending half (emitting its color as
background) or record this half's color at the complementary coordinate
(`u8` wrapping on `y ± 1`). -/
def renderStep (color : Nat) (p : Point) (top bottom : List ColoredPoint) :
    RenderOp × List ColoredPoint × List ColoredPoint :=
  let isTop := p.y % 2 = 0
  let v := if isTop then top else bottom
  match v.findIdx? (fun h => p = h.point) with
  | some i =>
    let h := v.getD i default
    let v' := swapRemove v i
    (⟨p, isTop, color, some h.color⟩, if isTop then (v', bottom) else (top, v'))
  | none =>
    let hp : Point := if isTop then ⟨p.x, (p.y + 1) % 256⟩ else ⟨p.x, (p.y + 255) % 256⟩
    let entry : ColoredPoint := ⟨hp, color⟩
    (⟨p, isTop, color, none⟩, if isTop then (top, bottom ++ [entry]) else (top ++ [entry], bottom))

/-- The full loop of `Snake::render` over a body, returning the emitted
glyphs in order together with the final pending half-cell buffers. -/
def renderBody (color : Nat) : List Point → List ColoredPoint → List ColoredPoint →
    List RenderOp × List ColoredPoint × List ColoredPoint
  | [], top, bottom => ([], top, bottom)
  | p :: rest, top, bottom =>
    let st := renderStep color p top bottom
    let r := renderBody color rest st.2.1 st.2.2
    (st.1 :: r.1, r.2)

/-- `Snake::render` (the emitted escape sequences abstracted to `RenderOp`s). -/
def Snake.render (s : Snake) (top bottom : List ColoredPoint) :
    List RenderOp × List ColoredPoint × List ColoredPoint :=
  renderBody s.color s.body top bottom

end Snakers

namespace Snakers

/-! ### Shared list helpers -/

theorem getD_set_ne {α} [Inhabited α] (l : List α) {i j : Nat} (a : α) (h : i ≠ j) :
    (l.set i a).getD j default = l.getD j default := by
  simp [List.getD_eq_getElem?_getD, List.getElem?_set_ne h]

theorem getD_set_self {α} [Inhabited α] (l : List α) {i : Nat} (a : α) (h : i < l.length) :
    (l.set i a).getD i default = a := by
  simp [List.getD_eq_getElem?_getD, List.getElem?_set_self h]

theorem getD_mem {α} [Inhabited α] (l : List α) {i : Nat} (h : i < l.length) :
    l.getD i default ∈ l := by
  rw [List.getD_eq_getElem?_getD, List.getElem?_eq_getElem h]
  exact List.getElem_mem h

theorem isqrtGo_sq_le (n : Nat) : ∀ m, isqrtGo n m * isqrtGo n m ≤ n := by
  intro m
  induction m with
  | zero => simp [isqrtGo]
  | succ m ih =>
    rw [isqrtGo]
    split
    · assumption
    · exact ih

theorem isqrt_sq_le (n : Nat) : isqrt n * isqrt n ≤ n := isqrtGo_sq_le n n

theorem lt_succ_isqrtGo_sq (n : Nat) :
    ∀ m, n < (m + 1) * (m + 1) → n < (isqrtGo n m + 1) * (isqrtGo n m + 1) := by
  intro m
  induction m with
  | zero => intro h; simpa [isqrtGo] using h
  | succ m ih =>
    intro h
    rw [isqrtGo]
    split
    · exact h
    · exact ih (by omega)

theorem lt_succ_isqrt_sq (n : Nat) : n < (isqrt n + 1) * (isqrt n + 1) := by
  have hn : n < (n + 1) * (n + 1) := by
    have h : (n + 1) * (n + 1) = n * n + 2 * n + 1 := by ring
    omega
  exact lt_succ_isqrtGo_sq n n hn

/-! ### Characterisations of the crash scan (`Snake::is_crash`) -/

theorem bodyHit_eq_false {c : Bool} {tIdx : Nat} {h : Point} (l : List Point) (start : Nat)
    (H : ∀ k, k < l.length → l.getD k default = h → c = true ∧ start + k = tIdx) :
    bodyHit c tIdx h start l = false := by
  induction l generalizing start with
  | nil => rfl
  | cons p rest ih =>
    rw [bodyHit]
    have hcond : ¬(¬(c = true ∧ start = tIdx) ∧ p = h) := by
      rintro ⟨hno, hp⟩
      exact hno (by simpa using H 0 (by simp) (by simpa using hp))
    rw [if_neg hcond]
    exact ih (start + 1) (fun k hk hv => by
      have := H (k + 1) (by simpa using Nat.succ_lt_succ hk) (by simpa using hv)
      exact ⟨this.1, by omega⟩)

theorem bodyHit_eq_true {c : Bool} {tIdx : Nat} {h : Point} (l : List Point) (start k : Nat)
    (hk : k < l.length) (hv : l.getD k default = h)
    (hex : ¬(c = true ∧ start + k = tIdx)) :
    bodyHit c tIdx h start l = true := by
  induction l generalizing start k with
  | nil => simp at hk
  | cons p rest ih =>
    rw [bodyHit]
    by_cases hcond : ¬(c = true ∧ start = tIdx) ∧ p = h
    · rw [if_pos hcond]
    · rw [if_neg hcond]
      cases k with
      | zero =>
        exfalso
        exact hcond ⟨by simpa using hex, by simpa using hv⟩
      | succ k' =>
        exact ih (start + 1) k' (by simpa using hk) (by simpa using hv) (by
          intro hc; exact hex ⟨hc.1, by omega⟩)

theorem crashScan_eq_false {c : Bool} {idx : Nat} {h : Point} (l : List Snake) (start : Nat)
    (H : ∀ k, k < l.length → snakeHit c (l.getD k default) h = false) :
    crashScan c idx h start l = (false, none) := by
  induction l generalizing start with
  | nil => rfl
  | cons s rest ih =>
    have h0 : snakeHit c s h = false := by simpa using H 0 (by simp)
    rw [crashScan, if_neg (by simp [h0])]
    exact ih (start + 1) (fun k hk => by
      simpa using H (k + 1) (by simpa using Nat.succ_lt_succ hk))

theorem crashScan_firstHit {c : Bool} {idx : Nat} {h : Point} (l : List Snake) (start j : Nat)
    (hj : j < l.length) (hhit : snakeHit c (l.getD j default) h = true)
    (hbefore : ∀ k, k < j → snakeHit c (l.getD k default) h = false) :
    crashScan c idx h start l = (true, if idx ≠ start + j then some (start + j) else none) := by
  induction l generalizing start j with
  | nil => simp at hj
  | cons s rest ih =>
    cases j with
    | zero =>
      have h0 : snakeHit c s h = true := by simpa using hhit
      rw [crashScan, if_pos h0]
      simp
    | succ j' =>
      have h0 : snakeHit c s h = false := by simpa using hbefore 0 (Nat.succ_pos _)
      rw [crashScan, if_neg (by simp [h0])]
      have e : start + (j' + 1) = start + 1 + j' := by omega
      rw [e]
      exact ih (start + 1) j' (by simpa using hj) (by simpa using hhit)
        (fun k hk => by simpa using hbefore (k + 1) (by omega))

theorem tail_idx_lt_length (s : Snake) (h : s.head < s.body.length) :
    s.tail_idx < s.body.length := by
  rw [Snake.tail_idx]
  split <;> omega

/-- C1: in a configuration where the candidate head coincides exactly with
the tail cell of another agent `j` (and with no other body cell of any
agent), `is_crash` returns `false` when the mover is in cannibal mode and
`true` when it is not. -/
theorem crash_tail_exemption
    (snakes : List Snake) (idx j : Nat) (h : Point)
    (hj : j < snakes.length) (hne : j ≠ idx)
    (hhead : (snakes.getD j default).head < (snakes.getD j default).body.length)
    (htail : (snakes.getD j default).tailPoint = h)
    (huniq : ∀ i, i < snakes.length → ∀ k, k < (snakes.getD i default).body.length →
      (snakes.getD i default).body.getD k default = h →
      i = j ∧ k = (snakes.getD j default).tail_idx) :
    ((snakes.getD idx default).is_cannibal = true →
      (Snake.is_crash snakes idx h).1 = false) ∧
    ((snakes.getD idx default).is_cannibal = false →
      (Snake.is_crash snakes idx h).1 = true) := by
  constructor
  · intro hc
    rw [Snake.is_crash, hc]
    rw [crashScan_eq_false]
    intro k hk
    rw [snakeHit]
    apply bodyHit_eq_false
    intro m hm hv
    obtain ⟨hkj, hmt⟩ := huniq k hk m hm hv
    subst hkj
    exact ⟨rfl, by simpa using hmt⟩
  · intro hc
    rw [Snake.is_crash, hc]
    rw [crashScan_firstHit snakes 0 j hj]
    · rw [snakeHit]
      exact bodyHit_eq_true _ 0 _ (tail_idx_lt_length _ hhead) htail (by simp)
    · intro k hk
      rw [snakeHit]
      apply bodyHit_eq_false
      intro m hm hv
      obtain ⟨hkj, _⟩ := huniq k (by omega) m hm hv
      omega

/-- Witness for C1 at a concrete two-snake configuration: a cannibal mover
aimed exactly at the other snake's tail cell does not crash, while the same
mover out of cannibal mode does. -/
theorem crash_tail_exemption_w :
    (Snake.is_crash
      [⟨"", 0, [⟨5, 5⟩], 0, Direction.Up, 55, true, Strategy.Player, true⟩,
       ⟨"", 0, [⟨1, 1⟩, ⟨2, 2⟩], 1, Direction.Up, 60, true, Strategy.Eat, false⟩]
      0 ⟨1, 1⟩).1 = false ∧
    (Snake.is_crash
      [⟨"", 0, [⟨5, 5⟩], 0, Direction.Up, 55, true, Strategy.Player, false⟩,
       ⟨"", 0, [⟨1, 1⟩, ⟨2, 2⟩], 1, Direction.Up, 60, true, Strategy.Eat, false⟩]
      0 ⟨1, 1⟩).1 = true := by
  constructor
  · exact (crash_tail_exemption _ 0 1 ⟨1, 1⟩ (by decide) (by decide) (by decide)
      (by decide) (by decide)).1 (by decide)
  · exact (crash_tail_exemption _ 0 1 ⟨1, 1⟩ (by decide) (by decide) (by decide)
      (by decide) (by decide)).2 (by decide)

end Snakers

namespace Snakers

/-! ### `u8` arithmetic helpers -/

theorem u8AddSigned_lt (a : Nat) (d : Int) : u8AddSigned a d < 256 := by
  unfold u8AddSigned; omega

theorem u8AddSigned_self {a : Nat} (h : a < 256) : u8AddSigned a 0 = a := by
  unfold u8AddSigned; omega

theorem u8AddSigned_add_one {a : Nat} (h : a + 1 < 256) : u8AddSigned a 1 = a + 1 := by
  unfold u8AddSigned; omega

theorem u8AddSigned_sub_one {a : Nat} (h0 : 0 < a) (h : a < 256) :
    u8AddSigned a (-1) = a - 1 := by
  unfold u8AddSigned; omega

theorem u8AddSigned_zero_neg : u8AddSigned 0 (-1) = 255 := by
  unfold u8AddSigned; decide

theorem u8Sub1_eq {n : Nat} (h0 : 0 < n) (h : n ≤ 255) : u8Sub1 n = n - 1 := by
  unfold u8Sub1; omega

theorem stepWrap_x (arena : Arena) (p : Point) (dir : Direction) :
    (stepWrap arena p dir).x =
      if u8AddSigned p.x dir.coords.1 = 255 then u8Sub1 arena.size.x
      else if u8Sub1 arena.size.x < u8AddSigned p.x dir.coords.1 then 0
      else u8AddSigned p.x dir.coords.1 := rfl

theorem stepWrap_y (arena : Arena) (p : Point) (dir : Direction) :
    (stepWrap arena p dir).y =
      if u8AddSigned p.y dir.coords.2 = 255 then u8Sub1 ((arena.size.y * 2) % 256)
      else if u8Sub1 ((arena.size.y * 2) % 256) < u8AddSigned p.y dir.coords.2 then 0
      else u8AddSigned p.y dir.coords.2 := rfl

theorem cycle_back_snd_lt {len i : Nat} (h : i < len) : (cycle_back len i).2 < len := by
  simp only [cycle_back]
  split <;> omega

/-! ### C4 -/

/-- Counterexample for C4 as stated: with arena width 255 (a legal `u8`
width) and a cannibal length-1 snake at the high edge `x = 254` heading
`Right`, `serpentine` commits head `x = 254` (the `u8::MAX` branch fires and
re-assigns `size.x - 1`) instead of wrapping to `0` as the claim requires
for a step off the high edge. -/
theorem serpentine_wrap_cex :
    ((Snake.serpentine
        [⟨"", 0, [⟨254, 4⟩], 0, Direction.Right, 55, true, Strategy.Cannibal, true⟩]
        0 ⟨0, []⟩ ⟨⟨2, 2⟩, ⟨255, 5⟩⟩).1.getD 0 default).alive = true ∧
    ((Snake.serpentine
        [⟨"", 0, [⟨254, 4⟩], 0, Direction.Right, 55, true, Strategy.Cannibal, true⟩]
        0 ⟨0, []⟩ ⟨⟨2, 2⟩, ⟨255, 5⟩⟩).1.getD 0 default).headPoint = ⟨254, 4⟩ ∧
    ¬(((Snake.serpentine
        [⟨"", 0, [⟨254, 4⟩], 0, Direction.Right, 55, true, Strategy.Cannibal, true⟩]
        0 ⟨0, []⟩ ⟨⟨2, 2⟩, ⟨255, 5⟩⟩).1.getD 0 default).headPoint.x = 0) := by
  decide

/-- C4 (amended): for arenas with `0 < size.x ≤ 254` and
`0 < size.y ≤ 127` (so that neither `u8` bound computation overflows), one
wrapped step stays inside `[0, size.x) × [0, size.y*2)`, stepping off the
low edge of an axis yields that axis's high bound minus one, stepping off
the high edge yields zero, and the head `serpentine` commits for an alive,
non-crashing mover is exactly this wrapped step of its current head. -/
theorem serpentine_wrap (arena : Arena)
    (hx0 : 0 < arena.size.x) (hx1 : arena.size.x ≤ 254)
    (hy0 : 0 < arena.size.y) (hy1 : arena.size.y ≤ 127) :
    (∀ p : Point, ∀ dir : Direction, p.x < arena.size.x → p.y < arena.size.y * 2 →
      ((stepWrap arena p dir).x < arena.size.x ∧
        (stepWrap arena p dir).y < arena.size.y * 2) ∧
      (dir = Direction.Left → p.x = 0 → (stepWrap arena p dir).x = arena.size.x - 1) ∧
      (dir = Direction.Right → p.x = arena.size.x - 1 → (stepWrap arena p dir).x = 0) ∧
      (dir = Direction.Up → p.y = 0 → (stepWrap arena p dir).y = arena.size.y * 2 - 1) ∧
      (dir = Direction.Down → p.y = arena.size.y * 2 - 1 →
        (stepWrap arena p dir).y = 0)) ∧
    (∀ snakes : List Snake, ∀ idx : Nat, ∀ rng : Rng,
      idx < snakes.length →
      (snakes.getD idx default).head < (snakes.getD idx default).body.length →
      (snakes.getD idx default).alive = true →
      (Snake.is_crash
        (snakes.set idx { snakes.getD idx default with
          head := (cycle_back (snakes.getD idx default).body.length
            (snakes.getD idx default).head).2 }) idx
        (stepWrap arena (snakes.getD idx default).headPoint
          (snakes.getD idx default).dir)).1 = false →
      ((Snake.serpentine snakes idx rng arena).1.getD idx default).headPoint =
        stepWrap arena (snakes.getD idx default).headPoint
          (snakes.getD idx default).dir) := by
  have hsy : (arena.size.y * 2) % 256 = arena.size.y * 2 := Nat.mod_eq_of_lt (by omega)
  have hsx1 : u8Sub1 arena.size.x = arena.size.x - 1 := u8Sub1_eq hx0 (by omega)
  have hsy1 : u8Sub1 ((arena.size.y * 2) % 256) = arena.size.y * 2 - 1 := by
    rw [hsy]; exact u8Sub1_eq (by omega) (by omega)
  constructor
  · intro p dir hpx hpy
    refine ⟨⟨?_, ?_⟩, ?_, ?_, ?_, ?_⟩
    · rw [stepWrap_x, hsx1]
      have := u8AddSigned_lt p.x dir.coords.1
      split_ifs <;> omega
    · rw [stepWrap_y, hsy1]
      have := u8AddSigned_lt p.y dir.coords.2
      split_ifs <;> omega
    · rintro rfl hx
      rw [stepWrap_x, hsx1]
      simp only [Direction.coords]
      rw [hx, u8AddSigned_zero_neg]
      simp
    · rintro rfl hx
      rw [stepWrap_x, hsx1]
      simp only [Direction.coords]
      rw [hx, u8AddSigned_add_one (by omega)]
      have h1 : ¬(arena.size.x - 1 + 1 = 255) := by omega
      rw [if_neg h1, if_pos (by omega)]
    · rintro rfl hy
      rw [stepWrap_y, hsy1]
      simp only [Direction.coords]
      rw [hy, u8AddSigned_zero_neg]
      simp
    · rintro rfl hy
      rw [stepWrap_y, hsy1]
      simp only [Direction.coords]
      rw [hy, u8AddSigned_add_one (by omega)]
      have h1 : ¬(arena.size.y * 2 - 1 + 1 = 255) := by omega
      rw [if_neg h1, if_pos (by omega)]
  · intro snakes idx rng hidx hwf halive hcrash
    unfold Snake.serpentine
    simp only [cycle_back] at hcrash ⊢
    rw [Snake.headPoint] at hcrash
    rw [halive] at hcrash ⊢
    simp only [hcrash, Bool.and_false, Bool.false_eq_true, if_false, if_true]
    rw [getD_set_self _ _ (by simp only [List.length_set]; exact hidx)]
    rw [Snake.headPoint]
    have hlt : (if (snakes.getD idx default).head = 0 then
        (snakes.getD idx default).body.length - 1
        else (snakes.getD idx default).head - 1) <
        (snakes.getD idx default).body.length := by
      split <;> omega
    rw [getD_set_self _ _ hlt]
    rfl

/-- Witness for the amended C4: on a 10 x 5 arena, stepping left from
`x = 0` stays in bounds and lands on `x = size.x - 1 = 9`. -/
theorem serpentine_wrap_w :
    ((stepWrap ⟨⟨2, 2⟩, ⟨10, 5⟩⟩ ⟨0, 0⟩ Direction.Left).x < 10 ∧
      (stepWrap ⟨⟨2, 2⟩, ⟨10, 5⟩⟩ ⟨0, 0⟩ Direction.Left).y < 10) ∧
    (stepWrap ⟨⟨2, 2⟩, ⟨10, 5⟩⟩ ⟨0, 0⟩ Direction.Left).x = 9 := by
  have h := serpentine_wrap ⟨⟨2, 2⟩, ⟨10, 5⟩⟩ (by decide) (by decide) (by decide) (by decide)
  have h2 := h.1 ⟨0, 0⟩ Direction.Left (by decide) (by decide)
  exact ⟨h2.1, h2.2.1 rfl rfl⟩

/-! ### C3 -/

theorem ite_true_eq {α : Sort _} (a b : α) : (if (true = true) then a else b) = a :=
  if_pos rfl

theorem ite_false_eq {α : Sort _} (a b : α) : (if (false = true) then a else b) = b :=
  if_neg (by simp)

theorem remove_tail_eq_of_ge (s : Snake) (h : 3 ≤ s.len) :
    s.remove_tail =
      (true, { s with
        body := (s.body.eraseIdx s.tail_idx),
        head := ((cycle_back (s.body.eraseIdx s.tail_idx).length s.head).2) }) := by
  simp only [Snake.remove_tail]
  rw [if_neg (show ¬(s.len < 3) by omega)]

theorem remove_tail_eq_of_lt (s : Snake) (h : s.len < 3) :
    s.remove_tail = (false, s) := by
  simp only [Snake.remove_tail]
  rw [if_pos h]

/-- Counterexample for C3 as stated: a not-alive agent of length 2 is
respawned (marked alive with a randomized head) while its body still has 2
segments; the death animation never takes a body to 0 segments, because
`remove_tail` refuses below length 3. -/
theorem death_respawn_cex :
    ((Snake.serpentine
        [⟨"", 0, [⟨1, 1⟩, ⟨2, 2⟩], 0, Direction.Up, 80, false, Strategy.Eat, false⟩]
        0 ⟨0, []⟩ ⟨⟨2, 2⟩, ⟨10, 5⟩⟩).1.getD 0 default).alive = true ∧
    ((Snake.serpentine
        [⟨"", 0, [⟨1, 1⟩, ⟨2, 2⟩], 0, Direction.Up, 80, false, Strategy.Eat, false⟩]
        0 ⟨0, []⟩ ⟨⟨2, 2⟩, ⟨10, 5⟩⟩).1.getD 0 default).body.length = 2 ∧
    ¬(((Snake.serpentine
        [⟨"", 0, [⟨1, 1⟩, ⟨2, 2⟩], 0, Direction.Up, 80, false, Strategy.Eat, false⟩]
        0 ⟨0, []⟩ ⟨⟨2, 2⟩, ⟨10, 5⟩⟩).1.getD 0 default).body.length = 0) := by
  decide

/-- C3 (amended): an agent marked not-alive sheds exactly one tail segment
per eligible `serpentine` call while its length is at least 3; once the
length is below 3 it becomes alive again with its head relocated to the
freshly randomized coordinate and its body length at that moment preserved;
the shedding therefore stops at length 2 (never reaching 0) before respawn.
Other agents are untouched by the call. -/
theorem death_shed_respawn (snakes : List Snake) (idx : Nat) (rng : Rng) (arena : Arena)
    (hidx : idx < snakes.length)
    (hwf : (snakes.getD idx default).head < (snakes.getD idx default).body.length)
    (hdead : (snakes.getD idx default).alive = false) :
    (3 ≤ (snakes.getD idx default).body.length →
      ((Snake.serpentine snakes idx rng arena).1.getD idx default).alive = false ∧
      ((Snake.serpentine snakes idx rng arena).1.getD idx default).body.length =
        (snakes.getD idx default).body.length - 1) ∧
    ((snakes.getD idx default).body.length < 3 →
      ((Snake.serpentine snakes idx rng arena).1.getD idx default).alive = true ∧
      ((Snake.serpentine snakes idx rng arena).1.getD idx default).body.length =
        (snakes.getD idx default).body.length ∧
      ((Snake.serpentine snakes idx rng arena).1.getD idx default).headPoint =
        (({ snakes.getD idx default with
            head := (cycle_back (snakes.getD idx default).body.length
              (snakes.getD idx default).head).2 } : Snake).headPoint.randomize
          rng arena.size).1) ∧
    (∀ k, k < snakes.length → k ≠ idx →
      (Snake.serpentine snakes idx rng arena).1.getD k default = snakes.getD k default) := by
  have hcyc : (cycle_back (snakes.getD idx default).body.length
      (snakes.getD idx default).head).2 < (snakes.getD idx default).body.length :=
    cycle_back_snd_lt hwf
  refine ⟨?_, ?_, ?_⟩
  · intro h3
    unfold Snake.serpentine
    simp only [cycle_back] at hcyc ⊢
    rw [hdead]
    simp only [Bool.false_and, Bool.false_eq_true, if_false]
    rw [remove_tail_eq_of_ge _ (by simp only [Snake.len]; omega)]
    dsimp only
    rw [ite_true_eq]
    rw [getD_set_self _ _ (by simp only [List.length_set]; exact hidx)]
    refine ⟨rfl, ?_⟩
    dsimp only
    rw [List.length_eraseIdx]
    rw [if_pos (tail_idx_lt_length _ hcyc)]
  · intro h3
    unfold Snake.serpentine
    simp only [cycle_back] at hcyc ⊢
    rw [hdead]
    simp only [Bool.false_and, Bool.false_eq_true, if_false]
    rw [remove_tail_eq_of_lt _ (by simp only [Snake.len]; omega)]
    dsimp only
    rw [ite_false_eq]
    rw [getD_set_self _ _ (by simp only [List.length_set]; exact hidx)]
    refine ⟨rfl, ?_, ?_⟩
    · dsimp only
      rw [List.length_set]
    · rw [Snake.headPoint]
      dsimp only
      rw [getD_set_self _ _ hcyc]
      rfl
  · intro k hk hkne
    unfold Snake.serpentine
    simp only [cycle_back]
    rw [hdead]
    simp only [Bool.false_and, Bool.false_eq_true, if_false]
    rcases Nat.lt_or_ge (snakes.getD idx default).body.length 3 with h3 | h3
    · rw [remove_tail_eq_of_lt _ (by simp only [Snake.len]; omega)]
      dsimp only
      rw [ite_false_eq]
      rw [getD_set_ne _ _ (fun h => hkne h.symm), getD_set_ne _ _ (fun h => hkne h.symm),
        getD_set_ne _ _ (fun h => hkne h.symm)]
    · rw [remove_tail_eq_of_ge _ (by simp only [Snake.len]; omega)]
      dsimp only
      rw [ite_true_eq]
      rw [getD_set_ne _ _ (fun h => hkne h.symm), getD_set_ne _ _ (fun h => hkne h.symm),
        getD_set_ne _ _ (fun h => hkne h.symm)]

/-- Witness for the amended C3: a dead length-3 snake sheds exactly one
segment on an eligible call, stays dead, and the other agent is untouched. -/
theorem death_shed_respawn_w :
    ((Snake.serpentine
        [⟨"", 0, [⟨9, 9⟩], 0, Direction.Up, 55, true, Strategy.Player, false⟩,
         ⟨"", 0, [⟨1, 1⟩, ⟨2, 2⟩, ⟨3, 3⟩], 0, Direction.Up, 80, false, Strategy.Eat, false⟩]
        1 ⟨0, []⟩ ⟨⟨2, 2⟩, ⟨10, 5⟩⟩).1.getD 1 default).alive = false ∧
    ((Snake.serpentine
        [⟨"", 0, [⟨9, 9⟩], 0, Direction.Up, 55, true, Strategy.Player, false⟩,
         ⟨"", 0, [⟨1, 1⟩, ⟨2, 2⟩, ⟨3, 3⟩], 0, Direction.Up, 80, false, Strategy.Eat, false⟩]
        1 ⟨0, []⟩ ⟨⟨2, 2⟩, ⟨10, 5⟩⟩).1.getD 1 default).body.length = 2 ∧
    (Snake.serpentine
        [⟨"", 0, [⟨9, 9⟩], 0, Direction.Up, 55, true, Strategy.Player, false⟩,
         ⟨"", 0, [⟨1, 1⟩, ⟨2, 2⟩, ⟨3, 3⟩], 0, Direction.Up, 80, false, Strategy.Eat, false⟩]
        1 ⟨0, []⟩ ⟨⟨2, 2⟩, ⟨10, 5⟩⟩).1.getD 0 default =
      ⟨"", 0, [⟨9, 9⟩], 0, Direction.Up, 55, true, Strategy.Player, false⟩ := by
  have h := death_shed_respawn
    [⟨"", 0, [⟨9, 9⟩], 0, Direction.Up, 55, true, Strategy.Player, false⟩,
     ⟨"", 0, [⟨1, 1⟩, ⟨2, 2⟩, ⟨3, 3⟩], 0, Direction.Up, 80, false, Strategy.Eat, false⟩]
    1 ⟨0, []⟩ ⟨⟨2, 2⟩, ⟨10, 5⟩⟩ (by decide) (by decide) (by decide)
  exact ⟨(h.1 (by decide)).1, (h.1 (by decide)).2, h.2.2 0 (by decide) (by decide)⟩

/-! ### C2 -/

/-- Counterexample for C2 as stated: the mover's candidate head `(0,1)`
collides (non-exempted) with the body of agent 1, but the mover's own body
is scanned first and also contains `(0,1)`, so no killer is attributed:
agent 1 is not extended (its length stays 1, not 1 + 2), and because the
mover's length 2 is below 3 it respawns at once, ending the call alive. -/
theorem serpentine_kill_transfer_cex :
    stepWrap ⟨⟨2, 2⟩, ⟨10, 5⟩⟩ ⟨0, 0⟩ Direction.Down = ⟨0, 1⟩ ∧
    snakeHit false ⟨"", 0, [⟨0, 1⟩], 0, Direction.Up, 60, true, Strategy.Eat, false⟩
      ⟨0, 1⟩ = true ∧
    ((Snake.serpentine
        [⟨"", 0, [⟨0, 0⟩, ⟨0, 1⟩], 0, Direction.Down, 55, true, Strategy.Player, false⟩,
         ⟨"", 0, [⟨0, 1⟩], 0, Direction.Up, 60, true, Strategy.Eat, false⟩]
        0 ⟨0, []⟩ ⟨⟨2, 2⟩, ⟨10, 5⟩⟩).1.getD 1 default).body.length = 1 ∧
    ((Snake.serpentine
        [⟨"", 0, [⟨0, 0⟩, ⟨0, 1⟩], 0, Direction.Down, 55, true, Strategy.Player, false⟩,
         ⟨"", 0, [⟨0, 1⟩], 0, Direction.Up, 60, true, Strategy.Eat, false⟩]
        0 ⟨0, []⟩ ⟨⟨2, 2⟩, ⟨10, 5⟩⟩).1.getD 0 default).alive = true := by
  decide

/-- C2 (amended): if the mover is alive with length at least 3 and agent
`j ≠ mover` is the first agent in scan order whose body (non-exempted)
contains the candidate head — the collision the killer attribution selects —
then after `serpentine` the mover is not-alive with its delay set to the
dying value 80, and `j`'s body is extended by mover-pre-length copies of
`j`'s current head point, appended at the end. -/
theorem serpentine_kill_transfer (snakes : List Snake) (idx j : Nat) (rng : Rng)
    (arena : Arena)
    (hidx : idx < snakes.length) (hj : j < snakes.length) (hne : j ≠ idx)
    (halive : (snakes.getD idx default).alive = true)
    (hlen : 3 ≤ (snakes.getD idx default).body.length)
    (hhit : snakeHit (snakes.getD idx default).is_cannibal (snakes.getD j default)
      (stepWrap arena (snakes.getD idx default).headPoint
        (snakes.getD idx default).dir) = true)
    (hfirst : ∀ i, i < j →
      snakeHit (snakes.getD idx default).is_cannibal
        ((snakes.set idx { snakes.getD idx default with
          head := ((cycle_back (snakes.getD idx default).body.length
            (snakes.getD idx default).head).2) }).getD i default)
        (stepWrap arena (snakes.getD idx default).headPoint
          (snakes.getD idx default).dir) = false) :
    ((Snake.serpentine snakes idx rng arena).1.getD idx default).alive = false ∧
    ((Snake.serpentine snakes idx rng arena).1.getD idx default).speed = 80 ∧
    ((Snake.serpentine snakes idx rng arena).1.getD j default).body =
      (snakes.getD j default).body ++
        List.replicate (snakes.getD idx default).body.length
          ((snakes.getD j default).headPoint) := by
  have hij : idx ≠ j := fun h => hne h.symm
  have hcr : Snake.is_crash
      (snakes.set idx { snakes.getD idx default with
        head := ((cycle_back (snakes.getD idx default).body.length
          (snakes.getD idx default).head).2) }) idx
      (stepWrap arena (snakes.getD idx default).headPoint
        (snakes.getD idx default).dir) = (true, some j) := by
    rw [Snake.is_crash]
    rw [getD_set_self _ _ hidx]
    simp only [Snake.is_cannibal] at hhit hfirst ⊢
    rw [crashScan_firstHit _ 0 j (by rw [List.length_set]; exact hj)
      (by rw [getD_set_ne _ _ hij]; exact hhit)
      (fun k hk => hfirst k hk)]
    simp only [Nat.zero_add]
    rw [if_pos hij]
  unfold Snake.serpentine
  simp only [cycle_back] at hcr hfirst ⊢
  rw [Snake.headPoint] at hcr
  rw [halive] at hcr ⊢
  rw [hcr]
  dsimp only
  simp only [Bool.and_self, eq_self_iff_true, if_true, ite_true_eq,
    Bool.false_eq_true, if_false, ite_false_eq]
  rw [remove_tail_eq_of_ge _ (by simp only [Snake.len]; omega)]
  dsimp only
  simp only [eq_self_iff_true, if_true, ite_true_eq, Bool.false_eq_true, if_false,
    ite_false_eq]
  refine ⟨?_, ?_, ?_⟩
  · rw [getD_set_self _ _ (by simp only [List.length_set]; exact hidx)]
  · rw [getD_set_self _ _ (by simp only [List.length_set]; exact hidx)]
  · rw [getD_set_ne _ _ hij]
    rw [getD_set_self _ _ (by simp only [List.length_set]; exact hj)]
    rw [getD_set_ne _ _ hij, getD_set_ne _ _ hij]
    dsimp only
    rw [Snake.len, Snake.headPoint]

/-- Witness for the amended C2: a length-3 mover crashing into the single
body cell of agent 0 dies (speed 80) and transfers its length: agent 0 is
extended by 3 copies of its head point. -/
theorem serpentine_kill_transfer_w :
    ((Snake.serpentine
        [⟨"", 0, [⟨5, 6⟩], 0, Direction.Up, 60, true, Strategy.Eat, false⟩,
         ⟨"", 0, [⟨5, 5⟩, ⟨6, 6⟩, ⟨7, 7⟩], 0, Direction.Down, 55, true, Strategy.Player, false⟩]
        1 ⟨0, []⟩ ⟨⟨2, 2⟩, ⟨10, 5⟩⟩).1.getD 1 default).alive = false ∧
    ((Snake.serpentine
        [⟨"", 0, [⟨5, 6⟩], 0, Direction.Up, 60, true, Strategy.Eat, false⟩,
         ⟨"", 0, [⟨5, 5⟩, ⟨6, 6⟩, ⟨7, 7⟩], 0, Direction.Down, 55, true, Strategy.Player, false⟩]
        1 ⟨0, []⟩ ⟨⟨2, 2⟩, ⟨10, 5⟩⟩).1.getD 1 default).speed = 80 ∧
    ((Snake.serpentine
        [⟨"", 0, [⟨5, 6⟩], 0, Direction.Up, 60, true, Strategy.Eat, false⟩,
         ⟨"", 0, [⟨5, 5⟩, ⟨6, 6⟩, ⟨7, 7⟩], 0, Direction.Down, 55, true, Strategy.Player, false⟩]
        1 ⟨0, []⟩ ⟨⟨2, 2⟩, ⟨10, 5⟩⟩).1.getD 0 default).body =
      [⟨5, 6⟩] ++ List.replicate 3 ⟨5, 6⟩ := by
  have h := serpentine_kill_transfer
    [⟨"", 0, [⟨5, 6⟩], 0, Direction.Up, 60, true, Strategy.Eat, false⟩,
     ⟨"", 0, [⟨5, 5⟩, ⟨6, 6⟩, ⟨7, 7⟩], 0, Direction.Down, 55, true, Strategy.Player, false⟩]
    1 0 ⟨0, []⟩ ⟨⟨2, 2⟩, ⟨10, 5⟩⟩ (by decide) (by decide) (by decide) (by decide)
    (by decide) (by decide) (fun i hi => absurd hi (Nat.not_lt_zero i))
  exact h

/-! ### Characterisations of the food and cannibal scans (`Snake::eat`) -/

theorem findFood_eq_some {hp : Point} (food : List Food) (start j : Nat)
    (hj : j < food.length)
    (hmatch : (food.getD j default).position = hp)
    (hbefore : ∀ k, k < j → (food.getD k default).position ≠ hp) :
    findFood hp start food = some (start + j) := by
  induction food generalizing start j with
  | nil => simp at hj
  | cons f rest ih =>
    cases j with
    | zero =>
      rw [findFood, if_pos (by simpa using hmatch)]
      simp
    | succ j' =>
      rw [findFood, if_neg (by simpa using hbefore 0 (Nat.succ_pos _))]
      have e : start + (j' + 1) = start + 1 + j' := by omega
      rw [e]
      exact ih (start + 1) j' (by simpa using hj) (by simpa using hmatch)
        (fun k hk => by simpa using hbefore (k + 1) (by omega))

theorem findFood_eq_none {hp : Point} (food : List Food) (start : Nat)
    (hnone : ∀ k, k < food.length → (food.getD k default).position ≠ hp) :
    findFood hp start food = none := by
  induction food generalizing start with
  | nil => rfl
  | cons f rest ih =>
    rw [findFood, if_neg (by simpa using hnone 0 (Nat.succ_pos _))]
    exact ih (start + 1) (fun k hk => by simpa using hnone (k + 1) (by simpa using hk))

theorem cannibalScan_firstHit {idx : Nat} {hp : Point} (snakes : List Snake)
    (start i : Nat) (hi : i < snakes.length)
    (hne : start + i ≠ idx)
    (htail : hp = (snakes.getD i default).tailPoint)
    (hlen : 3 ≤ (snakes.getD i default).len)
    (hbefore : ∀ k, k < i → ¬(start + k ≠ idx ∧
      hp = (snakes.getD k default).tailPoint ∧ 3 ≤ (snakes.getD k default).len)) :
    cannibalScan idx hp start snakes = some (start + i, ((snakes.getD i default).remove_tail).2) := by
  induction snakes generalizing start i with
  | nil => simp at hi
  | cons s rest ih =>
    cases i with
    | zero =>
      rw [cannibalScan, if_pos ⟨hne, by simpa using htail⟩]
      rw [remove_tail_eq_of_ge _ (by simpa using hlen)]
      dsimp only
      rw [if_pos rfl]
      simp only [List.getD_cons_zero]
      rw [remove_tail_eq_of_ge _ (by simpa using hlen)]
      simp
    | succ i' =>
      have hnot := hbefore 0 (Nat.succ_pos _)
      have step : cannibalScan idx hp (start + 1) rest =
          some (start + 1 + i', ((rest.getD i' default).remove_tail).2) :=
        ih (start + 1) i' (by simpa using hi) (by omega) (by simpa using htail)
          (by simpa using hlen)
          (fun k hk => by
            have := hbefore (k + 1) (by omega)
            simpa [Nat.add_assoc, Nat.add_comm 1 k] using this)
      by_cases hc : start ≠ idx ∧ hp = s.tailPoint
      · have hsl : s.len < 3 := by
          by_contra hge
          exact hnot ⟨by simpa using hc.1, by simpa using hc.2, by simp; omega⟩
        rw [cannibalScan, if_pos hc, remove_tail_eq_of_lt _ hsl]
        dsimp only
        rw [if_neg (by simp)]
        rw [step]
        have e : start + (i' + 1) = start + 1 + i' := by omega
        simp [e]
      · rw [cannibalScan, if_neg hc, step]
        have e : start + (i' + 1) = start + 1 + i' := by omega
        simp [e]

theorem cannibalScan_eq_none {idx : Nat} {hp : Point} (snakes : List Snake) (start : Nat)
    (hnone : ∀ k, k < snakes.length → ¬(start + k ≠ idx ∧
      hp = (snakes.getD k default).tailPoint ∧ 3 ≤ (snakes.getD k default).len)) :
    cannibalScan idx hp start snakes = none := by
  induction snakes generalizing start with
  | nil => rfl
  | cons s rest ih =>
    have hnot := hnone 0 (Nat.succ_pos _)
    have step : cannibalScan idx hp (start + 1) rest = none :=
      ih (start + 1) (fun k hk => by
        have := hnone (k + 1) (by simpa using hk)
        simpa [Nat.add_assoc, Nat.add_comm 1 k] using this)
    by_cases hc : start ≠ idx ∧ hp = s.tailPoint
    · have hsl : s.len < 3 := by
        by_contra hge
        exact hnot ⟨by simpa using hc.1, by simpa using hc.2, by simp; omega⟩
      rw [cannibalScan, if_pos hc, remove_tail_eq_of_lt _ hsl]
      dsimp only
      rw [if_neg (by simp)]
      exact step
    · rw [cannibalScan, if_neg hc]
      exact step

/-! ### C5 -/

/-- C5: each `eat` call performs at most one consumption.  If some food's
position equals the mover's head, the first such food (in registry order)
has its effect applied to the mover and is relocated, no other agent or
food changes, and no cannibal tail-feed happens.  If no food matches, a
tail-feed (victim sheds its tail, mover grows by one segment at its head,
mover's cannibal deadline refreshes) happens only when the mover is in
cannibal mode and some other agent's tail coincides with the mover's head
with length above the minimum — the first such agent in scan order — and
then all foods are unchanged; otherwise nothing changes at all. -/
theorem eat_single_consumption (snakes : List Snake) (idx : Nat) (rng : Rng)
    (food : List Food) (arena : Arena) (hidx : idx < snakes.length) :
    (∀ j, j < food.length →
      (food.getD j default).position = (snakes.getD idx default).headPoint →
      (∀ k, k < j → (food.getD k default).position ≠ (snakes.getD idx default).headPoint) →
      (Snake.eat snakes idx rng food arena).1 =
        snakes.set idx ((food.getD j default).apply_effect (snakes.getD idx default)) ∧
      (Snake.eat snakes idx rng food arena).2.1 =
        food.set j { food.getD j default with
          position := (((food.getD j default).position.randomize rng arena.size).1) } ∧
      (∀ k, k ≠ j → (Snake.eat snakes idx rng food arena).2.1.getD k default =
        food.getD k default)) ∧
    ((∀ k, k < food.length →
        (food.getD k default).position ≠ (snakes.getD idx default).headPoint) →
      ((snakes.getD idx default).is_cannibal = false →
        Snake.eat snakes idx rng food arena = (snakes, food, rng)) ∧
      ((snakes.getD idx default).is_cannibal = true →
        (∀ i, i < snakes.length → i ≠ idx →
          (snakes.getD idx default).headPoint = (snakes.getD i default).tailPoint →
          3 ≤ (snakes.getD i default).len →
          (∀ k, k < i → ¬(k ≠ idx ∧
            (snakes.getD idx default).headPoint = (snakes.getD k default).tailPoint ∧
            3 ≤ (snakes.getD k default).len)) →
          (Snake.eat snakes idx rng food arena).2.1 = food ∧
          (Snake.eat snakes idx rng food arena).1.getD idx default =
            { snakes.getD idx default with
              body := ((snakes.getD idx default).body ++
                [(snakes.getD idx default).headPoint]),
              cannibal := true } ∧
          (Snake.eat snakes idx rng food arena).1.getD i default =
            ((snakes.getD i default).remove_tail).2 ∧
          (∀ k, k < snakes.length → k ≠ idx → k ≠ i →
            (Snake.eat snakes idx rng food arena).1.getD k default =
              snakes.getD k default)) ∧
        ((∀ i, i < snakes.length → ¬(i ≠ idx ∧
            (snakes.getD idx default).headPoint = (snakes.getD i default).tailPoint ∧
            3 ≤ (snakes.getD i default).len)) →
          Snake.eat snakes idx rng food arena = (snakes, food, rng)))) := by
  constructor
  · intro j hj hm hb
    have hff : findFood (snakes.getD idx default).headPoint 0 food = some j := by
      have := findFood_eq_some food 0 j hj hm hb
      simpa using this
    unfold Snake.eat
    dsimp only
    rw [hff]
    dsimp only
    exact ⟨rfl, rfl, fun k hk => getD_set_ne _ _ (fun h => hk h.symm)⟩
  · intro hn
    have hff : findFood (snakes.getD idx default).headPoint 0 food = none :=
      findFood_eq_none food 0 hn
    refine ⟨?_, ?_⟩
    · intro hcan
      unfold Snake.eat
      dsimp only
      rw [hff]
      dsimp only
      rw [hcan]
      rw [ite_false_eq]
    · intro hcan
      constructor
      · intro i hi hine htail hlen hbefore
        have hcs : cannibalScan idx (snakes.getD idx default).headPoint 0 snakes =
            some (i, ((snakes.getD i default).remove_tail).2) := by
          have := cannibalScan_firstHit snakes 0 i hi (by simpa using hine) htail hlen
            (fun k hk => by simpa using hbefore k hk)
          simpa using this
        unfold Snake.eat
        dsimp only
        rw [hff]
        dsimp only
        rw [hcan, ite_true_eq, hcs]
        dsimp only
        refine ⟨rfl, ?_, ?_, ?_⟩
        · rw [getD_set_self _ _ (by rw [List.length_set]; exact hidx)]
        · rw [getD_set_ne _ _ (fun h => hine h.symm)]
          rw [getD_set_self _ _ hi]
        · intro k hk hkidx hki
          rw [getD_set_ne _ _ (fun h => hkidx h.symm),
            getD_set_ne _ _ (fun h => hki h.symm)]
      · intro hnone
        have hcs : cannibalScan idx (snakes.getD idx default).headPoint 0 snakes = none :=
          cannibalScan_eq_none snakes 0 (fun k hk => by simpa using hnone k hk)
        unfold Snake.eat
        dsimp only
        rw [hff]
        dsimp only
        rw [hcan, ite_true_eq, hcs]

/-- Witness for C5: with a single food sitting on the mover's head, `eat`
applies the food's effect to the mover and relocates that food. -/
theorem eat_single_consumption_w :
    (Snake.eat [⟨"", 0, [⟨3, 3⟩], 0, Direction.Up, 55, true, Strategy.Player, false⟩]
        0 ⟨0, []⟩ [⟨'x', ⟨3, 3⟩, 41, Effect.None⟩] ⟨⟨2, 2⟩, ⟨10, 5⟩⟩).1 =
      ([⟨"", 0, [⟨3, 3⟩], 0, Direction.Up, 55, true, Strategy.Player, false⟩] :
          List Snake).set 0
        (Food.apply_effect
          (([⟨'x', ⟨3, 3⟩, 41, Effect.None⟩] : List Food).getD 0 default)
          (([⟨"", 0, [⟨3, 3⟩], 0, Direction.Up, 55, true, Strategy.Player, false⟩] :
              List Snake).getD 0 default)) ∧
    (Snake.eat [⟨"", 0, [⟨3, 3⟩], 0, Direction.Up, 55, true, Strategy.Player, false⟩]
        0 ⟨0, []⟩ [⟨'x', ⟨3, 3⟩, 41, Effect.None⟩] ⟨⟨2, 2⟩, ⟨10, 5⟩⟩).2.1 =
      ([⟨'x', ⟨3, 3⟩, 41, Effect.None⟩] : List Food).set 0
        { ([⟨'x', ⟨3, 3⟩, 41, Effect.None⟩] : List Food).getD 0 default with
          position := (((([⟨'x', ⟨3, 3⟩, 41, Effect.None⟩] : List Food).getD 0
            default).position.randomize ⟨0, []⟩ (⟨⟨2, 2⟩, ⟨10, 5⟩⟩ : Arena).size).1) } := by
  have h := (eat_single_consumption
    [⟨"", 0, [⟨3, 3⟩], 0, Direction.Up, 55, true, Strategy.Player, false⟩]
    0 ⟨0, []⟩ [⟨'x', ⟨3, 3⟩, 41, Effect.None⟩] ⟨⟨2, 2⟩, ⟨10, 5⟩⟩ (by decide)).1
    0 (by decide) (by decide) (fun k hk => absurd hk (Nat.not_lt_zero k))
  exact ⟨h.1, h.2.1⟩

/-! ### C8 -/

/-- C8: a randomized point always lands in `[0, end.x) × [0, end.y*2)` when
both arena dimensions are positive (the `as u8` casts cannot push it out of
range), and in particular the position of the food relocated by a consuming
`eat` call satisfies these bounds for the arena's size. -/
theorem randomize_in_bounds (rng : Rng) :
    (∀ (p endP : Point), 0 < endP.x → 0 < endP.y →
      (p.randomize rng endP).1.x < endP.x ∧
      (p.randomize rng endP).1.y < endP.y * 2) ∧
    (∀ (snakes : List Snake) (idx : Nat) (food : List Food) (arena : Arena) (j : Nat),
      j < food.length →
      (food.getD j default).position = (snakes.getD idx default).headPoint →
      (∀ k, k < j → (food.getD k default).position ≠ (snakes.getD idx default).headPoint) →
      0 < arena.size.x → 0 < arena.size.y →
      ((Snake.eat snakes idx rng food arena).2.1.getD j default).position.x <
        arena.size.x ∧
      ((Snake.eat snakes idx rng food arena).2.1.getD j default).position.y <
        arena.size.y * 2) := by
  have hrand : ∀ (p endP : Point), 0 < endP.x → 0 < endP.y →
      (p.randomize rng endP).1.x < endP.x ∧
      (p.randomize rng endP).1.y < endP.y * 2 := by
    intro p endP hx0 hy0
    unfold Point.randomize Rng.generate
    dsimp only
    constructor
    · exact Nat.lt_of_le_of_lt (Nat.mod_le _ _) (Nat.mod_lt _ hx0)
    · exact Nat.lt_of_le_of_lt (Nat.mod_le _ _) (Nat.mod_lt _ (by omega))
  refine ⟨hrand, ?_⟩
  intro snakes idx food arena j hj hm hb hax hay
  have hff : findFood (snakes.getD idx default).headPoint 0 food = some j := by
    have := findFood_eq_some food 0 j hj hm hb
    simpa using this
  unfold Snake.eat
  dsimp only
  rw [hff]
  dsimp only
  rw [getD_set_self _ _ hj]
  dsimp only
  exact hrand _ _ hax hay

/-- Witness for C8 on a 10 × 5 arena with a concrete generator. -/
theorem randomize_in_bounds_w :
    (((⟨0, 0⟩ : Point).randomize ⟨0, []⟩ ⟨10, 5⟩).1.x < 10 ∧
      ((⟨0, 0⟩ : Point).randomize ⟨0, []⟩ ⟨10, 5⟩).1.y < 10) := by
  have h := (randomize_in_bounds ⟨0, []⟩).1 ⟨0, 0⟩ ⟨10, 5⟩ (by decide) (by decide)
  exact h

/-! ### C10 -/

theorem mem_set_len {l : List Snake} {i : Nat} {a : Snake}
    (h2 : ∀ s ∈ l, 2 ≤ s.body.length) (ha : 2 ≤ a.body.length) :
    ∀ s ∈ l.set i a, 2 ≤ s.body.length := by
  intro s hs
  rcases List.mem_or_eq_of_mem_set hs with h | h
  · exact h2 s h
  · rw [h]; exact ha

theorem remove_tail_len2 (s : Snake) (h : 2 ≤ s.body.length) :
    2 ≤ ((s.remove_tail).2).body.length := by
  by_cases h3 : s.len < 3
  · rw [remove_tail_eq_of_lt _ h3]; exact h
  · rw [remove_tail_eq_of_ge _ (by omega)]
    simp only [Snake.len] at h3
    dsimp only
    rw [List.length_eraseIdx]
    split <;> omega

theorem cannibalScan_inv {idx : Nat} {hp : Point} (snakes : List Snake) :
    ∀ (start i : Nat) (v : Snake),
    cannibalScan idx hp start snakes = some (i, v) →
    ∃ k, k < snakes.length ∧ v = ((snakes.getD k default).remove_tail).2 := by
  induction snakes with
  | nil =>
    intro start i v h
    rw [cannibalScan] at h
    exact absurd h (by simp)
  | cons s rest ih =>
    intro start i v h
    rw [cannibalScan] at h
    by_cases hc : start ≠ idx ∧ hp = s.tailPoint
    · rw [if_pos hc] at h
      dsimp only at h
      by_cases hrt : (s.remove_tail).1 = true
      · rw [if_pos hrt] at h
        injection h with h2
        have hv : v = (s.remove_tail).2 := (congrArg Prod.snd h2).symm
        exact ⟨0, by simp, by simpa using hv⟩
      · rw [if_neg hrt] at h
        obtain ⟨k, hk, hv⟩ := ih (start + 1) i v h
        exact ⟨k + 1, by simpa using hk, by simpa using hv⟩
    · rw [if_neg hc] at h
      obtain ⟨k, hk, hv⟩ := ih (start + 1) i v h
      exact ⟨k + 1, by simpa using hk, by simpa using hv⟩

theorem apply_effect_len2 (f : Food) (s : Snake) (h : 2 ≤ s.body.length) :
    2 ≤ ((f.apply_effect s).body.length) := by
  unfold Food.apply_effect
  rcases hf : f.effect <;> simp [Snake.add_speed] <;> omega

/-- C10: starting from agents whose bodies all have length at least 2 (in
particular at least 3), a `serpentine` call, an `eat` call, and
`remove_tail` each leave every agent's body length at least 2 — so no body
ever becomes empty and the head/tail accessors never index an empty
buffer. -/
theorem body_length_invariant (snakes : List Snake) (idx : Nat) (rng : Rng)
    (food : List Food) (arena : Arena)
    (hidx : idx < snakes.length)
    (h2 : ∀ s ∈ snakes, 2 ≤ s.body.length) :
    (∀ s' ∈ (Snake.serpentine snakes idx rng arena).1,
      2 ≤ s'.body.length ∧ s'.body ≠ []) ∧
    (∀ s' ∈ (Snake.eat snakes idx rng food arena).1,
      2 ≤ s'.body.length ∧ s'.body ≠ []) ∧
    (∀ s : Snake, 2 ≤ s.body.length →
      2 ≤ ((s.remove_tail).2).body.length ∧ ((s.remove_tail).2).body ≠ []) := by
  have h0 : 2 ≤ (snakes.getD idx default).body.length := h2 _ (getD_mem _ hidx)
  have hne : ∀ t : Snake, 2 ≤ t.body.length → t.body ≠ [] := by
    intro t ht he
    rw [he] at ht
    simp at ht
  have hser : ∀ s' ∈ (Snake.serpentine snakes idx rng arena).1, 2 ≤ s'.body.length := by
    intro s' hs'
    unfold Snake.serpentine at hs'
    dsimp only at hs'
    split at hs'
    case isTrue hcrash =>
      split at hs'
      case isTrue halive => exact absurd halive (by simp)
      case isFalse halive =>
        split at hs' <;> split at hs' <;>
          ((try dsimp only at hs')
           repeat' rcases List.mem_or_eq_of_mem_set hs' with hs' | rfl) <;>
          first
            | exact h2 _ hs'
            | exact h0
            | exact remove_tail_len2 _ h0
            | ((try dsimp only); rw [List.length_set]; exact remove_tail_len2 _ h0)
            | ((try dsimp only)
               simp only [List.length_set, List.length_append, List.length_replicate,
                 Snake.len]
               (try dsimp only)
               omega)
    case isFalse hcrash =>
      split at hs'
      case isTrue halive =>
        dsimp only at hs'
        repeat' rcases List.mem_or_eq_of_mem_set hs' with hs' | rfl
        all_goals
          first
            | exact h2 _ hs'
            | exact h0
            | ((try dsimp only); rw [List.length_set]; exact h0)
      case isFalse halive =>
        split at hs' <;>
          ((try dsimp only at hs')
           repeat' rcases List.mem_or_eq_of_mem_set hs' with hs' | rfl) <;>
          first
            | exact h2 _ hs'
            | exact h0
            | exact remove_tail_len2 _ h0
            | ((try dsimp only); rw [List.length_set]; exact remove_tail_len2 _ h0)
  refine ⟨fun s' hs' => ⟨hser s' hs', hne _ (hser s' hs')⟩, ?_, ?_⟩
  · have heat : ∀ s' ∈ (Snake.eat snakes idx rng food arena).1, 2 ≤ s'.body.length := by
      intro s' hs'
      unfold Snake.eat at hs'
      dsimp only at hs'
      rcases hff : findFood (snakes.getD idx default).headPoint 0 food with - | j
      · rw [hff] at hs'
        dsimp only at hs'
        split at hs'
        · rcases hcs : cannibalScan idx (snakes.getD idx default).headPoint 0 snakes
            with - | iv
          · rw [hcs] at hs'
            dsimp only at hs'
            exact h2 _ hs'
          · rw [hcs] at hs'
            dsimp only at hs'
            obtain ⟨k, hk, hv⟩ := cannibalScan_inv snakes 0 iv.1 iv.2
              (by rw [hcs])
            repeat' rcases List.mem_or_eq_of_mem_set hs' with hs' | rfl
            all_goals
              first
                | exact h2 _ hs'
                | (rw [hv]; exact remove_tail_len2 _ (h2 _ (getD_mem _ hk)))
                | (dsimp only
                   rw [List.length_append]
                   omega)
        · exact h2 _ hs'
      · rw [hff] at hs'
        dsimp only at hs'
        repeat' rcases List.mem_or_eq_of_mem_set hs' with hs' | rfl
        all_goals
          first
            | exact h2 _ hs'
            | exact apply_effect_len2 _ _ h0
    exact fun s' hs' => ⟨heat s' hs', hne _ (heat s' hs')⟩
  · intro s hs
    exact ⟨remove_tail_len2 s hs, hne _ (remove_tail_len2 s hs)⟩

/-- Witness for C10: a length-3 snake keeps at least 2 segments through
`remove_tail`, and a `serpentine` call on such a population leaves the
agent's body length at least 2. -/
theorem body_length_invariant_w :
    (2 ≤ (((⟨"", 0, [⟨1, 1⟩, ⟨2, 2⟩, ⟨3, 3⟩], 0, Direction.Up, 55, true, Strategy.Eat,
        false⟩ : Snake).remove_tail).2).body.length ∧
      (((⟨"", 0, [⟨1, 1⟩, ⟨2, 2⟩, ⟨3, 3⟩], 0, Direction.Up, 55, true, Strategy.Eat,
        false⟩ : Snake).remove_tail).2).body ≠ []) ∧
    2 ≤ ((Snake.serpentine
        [⟨"", 0, [⟨1, 1⟩, ⟨2, 2⟩, ⟨3, 3⟩], 0, Direction.Up, 55, true, Strategy.Eat, false⟩]
        0 ⟨0, []⟩ ⟨⟨2, 2⟩, ⟨10, 5⟩⟩).1.getD 0 default).body.length := by
  have h := body_length_invariant
    [⟨"", 0, [⟨1, 1⟩, ⟨2, 2⟩, ⟨3, 3⟩], 0, Direction.Up, 55, true, Strategy.Eat, false⟩]
    0 ⟨0, []⟩ [] ⟨⟨2, 2⟩, ⟨10, 5⟩⟩ (by decide) (by decide)
  refine ⟨h.2.2 _ (by decide), (h.1 _ ?_).1⟩
  have : ((Snake.serpentine
      [⟨"", 0, [⟨1, 1⟩, ⟨2, 2⟩, ⟨3, 3⟩], 0, Direction.Up, 55, true, Strategy.Eat, false⟩]
      0 ⟨0, []⟩ ⟨⟨2, 2⟩, ⟨10, 5⟩⟩).1.getD 0 default) ∈
      (Snake.serpentine
      [⟨"", 0, [⟨1, 1⟩, ⟨2, 2⟩, ⟨3, 3⟩], 0, Direction.Up, 55, true, Strategy.Eat, false⟩]
      0 ⟨0, []⟩ ⟨⟨2, 2⟩, ⟨10, 5⟩⟩).1 := by decide
  exact this


/-! ### C6 -/

theorem minByKey_eq_none (key : Point → Nat) (l : List Point)
    (h : minByKey key l = none) : l = [] := by
  cases l with
  | nil => rfl
  | cons q rest =>
    rw [minByKey] at h
    rcases hm : minByKey key rest with - | m <;> rw [hm] at h
    · exact absurd h (by simp)
    · dsimp only at h
      split at h <;> exact absurd h (by simp)

theorem minByKey_mem (key : Point → Nat) (l : List Point) (p : Point)
    (h : minByKey key l = some p) : p ∈ l := by
  induction l generalizing p with
  | nil => exact absurd h (by simp [minByKey])
  | cons q rest ih =>
    rw [minByKey] at h
    rcases hr : minByKey key rest with - | m <;> rw [hr] at h
    · injection h with h
      simp [h.symm]
    · dsimp only at h
      by_cases hk : key q ≤ key m
      · rw [if_pos hk] at h
        injection h with h
        simp [h.symm]
      · rw [if_neg hk] at h
        injection h with h
        subst h
        exact List.mem_cons_of_mem _ (ih _ hr)

theorem minByKey_le (key : Point → Nat) (l : List Point) (p : Point)
    (h : minByKey key l = some p) : ∀ q ∈ l, key p ≤ key q := by
  induction l generalizing p with
  | nil => exact absurd h (by simp [minByKey])
  | cons q rest ih =>
    intro r hrm
    rw [minByKey] at h
    rcases hm : minByKey key rest with - | m <;> rw [hm] at h
    · have hrest := minByKey_eq_none key rest hm
      subst hrest
      injection h with h
      subst h
      rcases List.mem_singleton.mp hrm with rfl
      exact Nat.le_refl _
    · dsimp only at h
      by_cases hk : key q ≤ key m
      · rw [if_pos hk] at h
        injection h with h
        subst h
        rcases List.mem_cons.mp hrm with rfl | hr
        · exact Nat.le_refl _
        · exact Nat.le_trans hk (ih m hm r hr)
      · rw [if_neg hk] at h
        injection h with h
        subst h
        rcases List.mem_cons.mp hrm with rfl | hr
        · omega
        · exact ih m hm r hr

theorem mem_rivalHeads (sp selfIdx : Nat) (l : List Snake) :
    ∀ (start : Nat) (p : Point), (p ∈ rivalHeads sp selfIdx start l ↔
      ∃ k, k < l.length ∧ start + k ≠ selfIdx ∧
        (sp + 8) % 256 < (l.getD k default).speed ∧
        p = (l.getD k default).headPoint) := by
  induction l with
  | nil => intro start p; simp [rivalHeads]
  | cons s rest ih =>
    intro start p
    rw [rivalHeads]
    by_cases hc : start ≠ selfIdx ∧ (sp + 8) % 256 < s.speed
    · rw [if_pos hc]
      constructor
      · intro hp
        rcases List.mem_cons.mp hp with rfl | hp
        · exact ⟨0, by simp, by simpa using hc.1, by simpa using hc.2, by simp⟩
        · obtain ⟨k, hk, h1, h2, h3⟩ := (ih (start + 1) p).mp hp
          exact ⟨k + 1, by simpa using hk, by omega, by simpa using h2, by simpa using h3⟩
      · rintro ⟨k, hk, h1, h2, h3⟩
        cases k with
        | zero =>
          rw [show p = s.headPoint from by simpa using h3]
          exact List.mem_cons_self _ _
        | succ k' =>
          refine List.mem_cons_of_mem _ ((ih (start + 1) p).mpr
            ⟨k', by simpa using hk, by omega, by simpa using h2, by simpa using h3⟩)
    · rw [if_neg hc]
      constructor
      · intro hp
        obtain ⟨k, hk, h1, h2, h3⟩ := (ih (start + 1) p).mp hp
        exact ⟨k + 1, by simpa using hk, by omega, by simpa using h2, by simpa using h3⟩
      · rintro ⟨k, hk, h1, h2, h3⟩
        cases k with
        | zero =>
          exact absurd ⟨by simpa using h1, by simpa using h2⟩ hc
        | succ k' =>
          exact (ih (start + 1) p).mpr
            ⟨k', by simpa using hk, by omega, by simpa using h2, by simpa using h3⟩

theorem locate_food_first (food : List Food) (e : Effect) :
    ∀ (j : Nat), j < food.length → (food.getD j default).effect = e →
    (∀ k, k < j → (food.getD k default).effect ≠ e) →
    locate_food food e = some ((food.getD j default).position) := by
  induction food with
  | nil => intro j hj; simp at hj
  | cons f rest ih =>
    intro j hj he hb
    cases j with
    | zero =>
      rw [locate_food, if_pos (by simpa using he)]
      simp
    | succ j' =>
      rw [locate_food, if_neg (by simpa using hb 0 (Nat.succ_pos _))]
      simpa using ih j' (by simpa using hj) (by simpa using he)
        (fun k hk => by simpa using hb (k + 1) (by simp; omega))

/-- Counterexample for C6 as stated: with two rivals both exceeding the
margin-8 delay threshold, one of length 1 whose head is adjacent and one of
length 5 whose head is far away, `find_target` for a Kill-seeker returns
the nearby short rival's head `(1,0)`, not the head `(9,9)` of the longest
qualifying rival. -/
theorem find_target_kill_cex :
    Snake.find_target
      [⟨"", 0, [⟨0, 0⟩], 0, Direction.Up, 50, true, Strategy.Kill, false⟩,
       ⟨"", 0, [⟨1, 0⟩], 0, Direction.Up, 60, true, Strategy.Eat, false⟩,
       ⟨"", 0, [⟨9, 9⟩, ⟨9, 9⟩, ⟨9, 9⟩, ⟨9, 9⟩, ⟨9, 9⟩], 4, Direction.Up, 60, true,
         Strategy.Eat, false⟩]
      0 [] = some ⟨1, 0⟩ ∧
    (50 + 8) % 256 < 60 ∧
    (([⟨"", 0, [⟨0, 0⟩], 0, Direction.Up, 50, true, Strategy.Kill, false⟩,
       ⟨"", 0, [⟨1, 0⟩], 0, Direction.Up, 60, true, Strategy.Eat, false⟩,
       ⟨"", 0, [⟨9, 9⟩, ⟨9, 9⟩, ⟨9, 9⟩, ⟨9, 9⟩, ⟨9, 9⟩], 4, Direction.Up, 60, true,
         Strategy.Eat, false⟩] : List Snake).getD 1 default).len = 1 ∧
    (([⟨"", 0, [⟨0, 0⟩], 0, Direction.Up, 50, true, Strategy.Kill, false⟩,
       ⟨"", 0, [⟨1, 0⟩], 0, Direction.Up, 60, true, Strategy.Eat, false⟩,
       ⟨"", 0, [⟨9, 9⟩, ⟨9, 9⟩, ⟨9, 9⟩, ⟨9, 9⟩, ⟨9, 9⟩], 4, Direction.Up, 60, true,
         Strategy.Eat, false⟩] : List Snake).getD 2 default).len = 5 ∧
    (([⟨"", 0, [⟨0, 0⟩], 0, Direction.Up, 50, true, Strategy.Kill, false⟩,
       ⟨"", 0, [⟨1, 0⟩], 0, Direction.Up, 60, true, Strategy.Eat, false⟩,
       ⟨"", 0, [⟨9, 9⟩, ⟨9, 9⟩, ⟨9, 9⟩, ⟨9, 9⟩, ⟨9, 9⟩], 4, Direction.Up, 60, true,
         Strategy.Eat, false⟩] : List Snake).getD 2 default).headPoint = ⟨9, 9⟩ ∧
    ¬((⟨1, 0⟩ : Point) = ⟨9, 9⟩) := by
  decide

/-- C6 (amended): for a Kill-seeker not taken over by the cannibal hunting
override, `find_target` returns the head of the rival nearest by
`quick_distance` among those whose delay exceeds the agent's own by more
than the margin 8 (not the longest such rival); if no rival qualifies, it
returns the position of the first `Speed` food in registry order (the
nearest one in the game's registry, which holds a single Speed food). -/
theorem find_target_kill (snakes : List Snake) (selfIdx : Nat) (food : List Food)
    (hstrat : (snakes.getD selfIdx default).strat = Strategy.Kill)
    (hnoov : cannibalTarget snakes selfIdx = none) :
    (∀ i, i < snakes.length → i ≠ selfIdx →
      ((snakes.getD selfIdx default).speed + 8) % 256 < (snakes.getD i default).speed →
      ∃ t, Snake.find_target snakes selfIdx food = some t ∧
        (∃ k, k < snakes.length ∧ k ≠ selfIdx ∧
          ((snakes.getD selfIdx default).speed + 8) % 256 <
            (snakes.getD k default).speed ∧
          t = (snakes.getD k default).headPoint) ∧
        (∀ k, k < snakes.length → k ≠ selfIdx →
          ((snakes.getD selfIdx default).speed + 8) % 256 <
            (snakes.getD k default).speed →
          (snakes.getD selfIdx default).headPoint.quick_distance t ≤
            (snakes.getD selfIdx default).headPoint.quick_distance
              ((snakes.getD k default).headPoint))) ∧
    ((∀ i, i < snakes.length → i ≠ selfIdx →
        ¬(((snakes.getD selfIdx default).speed + 8) % 256 <
          (snakes.getD i default).speed)) →
      ∀ j, j < food.length → (food.getD j default).effect = Effect.Speed →
      (∀ k, k < j → (food.getD k default).effect ≠ Effect.Speed) →
      Snake.find_target snakes selfIdx food =
        some ((food.getD j default).position)) := by
  constructor
  · intro i hi hine hsp
    have hmem : (snakes.getD i default).headPoint ∈
        rivalHeads (snakes.getD selfIdx default).speed selfIdx 0 snakes :=
      (mem_rivalHeads _ _ snakes 0 _).mpr ⟨i, hi, by simpa using hine, hsp, rfl⟩
    rcases hmin : minByKey
        (fun p => (snakes.getD selfIdx default).headPoint.quick_distance p)
        (rivalHeads (snakes.getD selfIdx default).speed selfIdx 0 snakes) with - | t
    · rw [minByKey_eq_none _ _ hmin] at hmem
      exact absurd hmem (List.not_mem_nil _)
    · refine ⟨t, ?_, ?_, ?_⟩
      · unfold Snake.find_target
        dsimp only
        rw [hnoov]
        dsimp only
        rw [hstrat]
        dsimp only
        rw [hmin]
      · obtain ⟨k, hk, h1, h2, h3⟩ :=
          (mem_rivalHeads _ _ snakes 0 t).mp (minByKey_mem _ _ _ hmin)
        exact ⟨k, hk, by simpa using h1, h2, h3⟩
      · intro k hk hkne hksp
        exact minByKey_le _ _ _ hmin _
          ((mem_rivalHeads _ _ snakes 0 _).mpr ⟨k, hk, by simpa using hkne, hksp, rfl⟩)
  · intro hno j hj he hb
    have hempty : rivalHeads (snakes.getD selfIdx default).speed selfIdx 0 snakes = [] := by
      rcases hr : rivalHeads (snakes.getD selfIdx default).speed selfIdx 0 snakes
        with - | ⟨p, rest⟩
      · rfl
      · exfalso
        have : p ∈ rivalHeads (snakes.getD selfIdx default).speed selfIdx 0 snakes := by
          rw [hr]; exact List.mem_cons_self _ _
        obtain ⟨k, hk, h1, h2, -⟩ := (mem_rivalHeads _ _ snakes 0 p).mp this
        exact hno k hk (by simpa using h1) h2
    unfold Snake.find_target
    dsimp only
    rw [hnoov]
    dsimp only
    rw [hstrat]
    dsimp only
    rw [hempty]
    rw [show minByKey (fun p => (snakes.getD selfIdx default).headPoint.quick_distance p)
      ([] : List Point) = none from rfl]
    exact locate_food_first food Effect.Speed j hj he hb

/-- Witness for the amended C6: with no qualifying rival, the Kill-seeker
targets the first Speed food's position. -/
theorem find_target_kill_w :
    Snake.find_target [⟨"", 0, [⟨0, 0⟩], 0, Direction.Up, 50, true, Strategy.Kill, false⟩]
      0 [⟨'s', ⟨4, 4⟩, 226, Effect.Speed⟩] = some ⟨4, 4⟩ := by
  have h := (find_target_kill
    [⟨"", 0, [⟨0, 0⟩], 0, Direction.Up, 50, true, Strategy.Kill, false⟩]
    0 [⟨'s', ⟨4, 4⟩, 226, Effect.Speed⟩] (by decide) (by decide)).2
    (fun i hi hine => absurd (Nat.lt_one_iff.mp hi) hine)
    0 (by decide) (by decide) (fun k hk => absurd hk (Nat.not_lt_zero k))
  exact h


/-! ### C7 -/

theorem seekDir_first (snakes : List Snake) (idx : Nat) (L : List Direction) :
    ∀ (i : Nat), i < L.length →
    (∀ k, k < i → (L.getD k default = (snakes.getD idx default).dir.inverse ∨
      (Snake.is_crash snakes idx
        ((snakes.getD idx default).headPoint.add (L.getD k default).coords)).1 = true)) →
    ¬(L.getD i default = (snakes.getD idx default).dir.inverse) →
    (Snake.is_crash snakes idx
      ((snakes.getD idx default).headPoint.add (L.getD i default).coords)).1 = false →
    seekDir snakes idx L = L.getD i default := by
  induction L with
  | nil => intro i hi; simp at hi
  | cons d rest ih =>
    intro i hi hb hinv hcr
    cases i with
    | zero =>
      rw [seekDir]
      rw [if_neg (by simpa using hinv)]
      rw [if_neg (by simp only [List.getD_cons_zero] at hcr; rw [hcr]; simp)]
      simp
    | succ i' =>
      have h0 := hb 0 (Nat.succ_pos _)
      rw [seekDir]
      by_cases hd : d = (snakes.getD idx default).dir.inverse
      · rw [if_pos hd]
        exact ih i' (by simpa using hi) (fun k hk => by simpa using hb (k + 1) (by simp; omega))
          (by simpa using hinv) (by simpa using hcr)
      · rw [if_neg hd]
        rcases h0 with h0 | h0
        · exact absurd (by simpa using h0) hd
        · rw [if_pos (by simpa using h0)]
          exact ih i' (by simpa using hi) (fun k hk => by simpa using hb (k + 1) (by simp; omega))
            (by simpa using hinv) (by simpa using hcr)

theorem seekDir_all_skip (snakes : List Snake) (idx : Nat) (L : List Direction) :
    (∀ k, k < L.length → (L.getD k default = (snakes.getD idx default).dir.inverse ∨
      (Snake.is_crash snakes idx
        ((snakes.getD idx default).headPoint.add (L.getD k default).coords)).1 = true)) →
    seekDir snakes idx L = (snakes.getD idx default).dir := by
  induction L with
  | nil => intro _; rw [seekDir]
  | cons d rest ih =>
    intro hall
    have h0 := hall 0 (Nat.succ_pos _)
    rw [seekDir]
    by_cases hd : d = (snakes.getD idx default).dir.inverse
    · rw [if_pos hd]
      exact ih (fun k hk => by simpa using hall (k + 1) (by simp; omega))
    · rw [if_neg hd]
      rcases h0 with h0 | h0
      · exact absurd (by simpa using h0) hd
      · rw [if_pos (by simpa using h0)]
        exact ih (fun k hk => by simpa using hall (k + 1) (by simp; omega))

/-- C7: the direction `seek` commits is the first entry of the 4-candidate
list from `nearest_directions` that is neither the reversal of the current
direction nor crashes the hypothetical one-step head; if every candidate is
skipped, the direction is unchanged; and `seek` mutates nothing but the
mover's direction. -/
theorem seek_first_safe (snakes : List Snake) (idx : Nat) (target bounds : Point)
    (hidx : idx < snakes.length) :
    (∀ i, i < ((snakes.getD idx default).headPoint.nearest_directions target bounds).length →
      (∀ k, k < i →
        (((snakes.getD idx default).headPoint.nearest_directions target bounds).getD k
            default = (snakes.getD idx default).dir.inverse ∨
          (Snake.is_crash snakes idx ((snakes.getD idx default).headPoint.add
            (((snakes.getD idx default).headPoint.nearest_directions target bounds).getD k
              default).coords)).1 = true)) →
      ¬(((snakes.getD idx default).headPoint.nearest_directions target bounds).getD i
          default = (snakes.getD idx default).dir.inverse) →
      (Snake.is_crash snakes idx ((snakes.getD idx default).headPoint.add
        (((snakes.getD idx default).headPoint.nearest_directions target bounds).getD i
          default).coords)).1 = false →
      ((Snake.seek snakes idx target bounds).getD idx default).dir =
        ((snakes.getD idx default).headPoint.nearest_directions target bounds).getD i
          default) ∧
    ((∀ k, k < ((snakes.getD idx default).headPoint.nearest_directions target
        bounds).length →
      (((snakes.getD idx default).headPoint.nearest_directions target bounds).getD k
          default = (snakes.getD idx default).dir.inverse ∨
        (Snake.is_crash snakes idx ((snakes.getD idx default).headPoint.add
          (((snakes.getD idx default).headPoint.nearest_directions target bounds).getD k
            default).coords)).1 = true)) →
      ((Snake.seek snakes idx target bounds).getD idx default).dir =
        (snakes.getD idx default).dir) ∧
    ((Snake.seek snakes idx target bounds).getD idx default).body =
      (snakes.getD idx default).body ∧
    (∀ k, k ≠ idx → (Snake.seek snakes idx target bounds).getD k default =
      snakes.getD k default) := by
  refine ⟨?_, ?_, ?_, ?_⟩
  · intro i hi hb hinv hcr
    unfold Snake.seek
    dsimp only
    rw [getD_set_self _ _ hidx]
    exact seekDir_first snakes idx _ i hi hb hinv hcr
  · intro hall
    unfold Snake.seek
    dsimp only
    rw [getD_set_self _ _ hidx]
    exact seekDir_all_skip snakes idx _ hall
  · unfold Snake.seek
    dsimp only
    rw [getD_set_self _ _ hidx]
  · intro k hk
    unfold Snake.seek
    dsimp only
    exact getD_set_ne _ _ (fun h => hk h.symm)

/-- Witness for C7: a lone snake at `(5,5)` heading up with target `(7,5)`
commits the first candidate, `Right` (not the reversal, no crash). -/
theorem seek_first_safe_w :
    ((Snake.seek [⟨"", 0, [⟨5, 5⟩], 0, Direction.Up, 55, true, Strategy.Eat, false⟩]
      0 ⟨7, 5⟩ ⟨10, 5⟩).getD 0 default).dir = Direction.Right := by
  have h := (seek_first_safe
    [⟨"", 0, [⟨5, 5⟩], 0, Direction.Up, 55, true, Strategy.Eat, false⟩]
    0 ⟨7, 5⟩ ⟨10, 5⟩ (by decide)).1 0 (by decide)
    (fun k hk => absurd hk (Nat.not_lt_zero k)) (by decide) (by decide)
  exact h.trans (by decide)

/-! ### C9 -/

/-- The unordered set of colors a `RenderOp` paints into its terminal
cell: the foreground plus the background when one is set. -/
def opColors (c : RenderOp) : Multiset Nat :=
  c.fg ::ₘ (match c.bg with | some b => {b} | none => 0)

/-- C9: two agents `A` (color `cA`, upper half `(x, y)`, `y` even) and `B`
(color `cB`, lower half `(x, y+1)`) sharing one physical cell compose
order-independently: rendering A then B emits the cell's completing glyph
with foreground `cB` over background `cA`, rendering B then A emits
foreground `cA` over background `cB` — the same unordered pair
`{cA, cB}` of colors either way, with only the foreground role swapped. -/
theorem render_merge_comm (x y cA cB : Nat) (hy2 : y % 2 = 0) (hy : y ≤ 254) :
    (Snake.render ⟨"", cA, [⟨x, y⟩], 0, Direction.Up, 55, true, Strategy.Eat, false⟩
      [] []).1 = [⟨⟨x, y⟩, true, cA, none⟩] ∧
    (Snake.render ⟨"", cB, [⟨x, y + 1⟩], 0, Direction.Up, 55, true, Strategy.Eat, false⟩
      (Snake.render ⟨"", cA, [⟨x, y⟩], 0, Direction.Up, 55, true, Strategy.Eat, false⟩
        [] []).2.1
      (Snake.render ⟨"", cA, [⟨x, y⟩], 0, Direction.Up, 55, true, Strategy.Eat, false⟩
        [] []).2.2).1 = [⟨⟨x, y + 1⟩, false, cB, some cA⟩] ∧
    (Snake.render ⟨"", cB, [⟨x, y + 1⟩], 0, Direction.Up, 55, true, Strategy.Eat, false⟩
      [] []).1 = [⟨⟨x, y + 1⟩, false, cB, none⟩] ∧
    (Snake.render ⟨"", cA, [⟨x, y⟩], 0, Direction.Up, 55, true, Strategy.Eat, false⟩
      (Snake.render ⟨"", cB, [⟨x, y + 1⟩], 0, Direction.Up, 55, true, Strategy.Eat, false⟩
        [] []).2.1
      (Snake.render ⟨"", cB, [⟨x, y + 1⟩], 0, Direction.Up, 55, true, Strategy.Eat, false⟩
        [] []).2.2).1 = [⟨⟨x, y⟩, true, cA, some cB⟩] ∧
    opColors ⟨⟨x, y + 1⟩, false, cB, some cA⟩ = ({cA, cB} : Multiset Nat) ∧
    opColors ⟨⟨x, y⟩, true, cA, some cB⟩ = ({cA, cB} : Multiset Nat) := by
  have hy1 : (y + 1) % 2 = 1 := by omega
  have h256 : (y + 1) % 256 = y + 1 := Nat.mod_eq_of_lt (by omega)
  have hy255 : (y + 1 + 255) % 256 = y := by omega
  refine ⟨?_, ?_, ?_, ?_, ?_, ?_⟩
  · simp [Snake.render, renderBody, renderStep, hy2, List.findIdx?]
  · simp [Snake.render, renderBody, renderStep, swapRemove, hy2, hy1, h256,
      List.findIdx?]
  · simp [Snake.render, renderBody, renderStep, hy1, List.findIdx?]
  · simp [Snake.render, renderBody, renderStep, swapRemove, hy2, hy1, hy255,
      List.findIdx?]
  · simp [opColors]
    exact Multiset.cons_swap cB cA 0
  · simp [opColors]

/-- Witness for C9 at cell column 3, rows 4/5, colors 10 and 20. -/
theorem render_merge_comm_w :
    (Snake.render ⟨"", 20, [⟨3, 5⟩], 0, Direction.Up, 55, true, Strategy.Eat, false⟩
      (Snake.render ⟨"", 10, [⟨3, 4⟩], 0, Direction.Up, 55, true, Strategy.Eat, false⟩
        [] []).2.1
      (Snake.render ⟨"", 10, [⟨3, 4⟩], 0, Direction.Up, 55, true, Strategy.Eat, false⟩
        [] []).2.2).1 = [⟨⟨3, 5⟩, false, 20, some 10⟩] ∧
    opColors ⟨⟨3, 5⟩, false, 20, some 10⟩ = ({10, 20} : Multiset Nat) := by
  have h := render_merge_comm 3 4 10 20 (by decide) (by decide)
  exact ⟨h.2.1, h.2.2.2.2.1⟩
